import Mathlib

/-!
Shallow embedding of `graphql-proxy` (src/unnamed/part_005: `createProxy`).

The JavaScript source builds proxy classes.  Its parts are modelled as:
* declaration-time validation of getters/methods (lines 2-41)  → `validateAll`
* in-place merge of built-in getters/methods (lines 43-107)    → `mergeGetterDecls`, `mergeGetters`
* the per-instance constructor (lines 109-121)                 → `construct`
* the proxy `get` trap (lines 122-150)                          → `resolveStep` / `resolveN`
* the built-in getters/methods (`entityLoader`, `dataValues`,
  `exists`, `assertExists`, `clearCache`)                       → the `…Getter`/`…Method` defs

Modelling conventions (documented once here):
* JS promises are deferred values identified by allocation index (`JSVal.deferred`);
  the heap `HState.defs` maps each index to pending/resolved/rejected.  An async
  function body is modelled as running atomically at invocation time, returning a
  freshly allocated deferred carrying the body's settlement; this is faithful to the
  single-threaded JS model for the properties proved here (the cache write in the
  trap happens synchronously, before any settlement is observable).
* Property accesses on the proxy (`this.x` inside getter/method bodies) go through
  the resolver, exactly as the JS `get` trap intercepts them.  Accesses of the own
  fields `id`/`context`/`entityType`/`_cache` are served from `HState` directly,
  matching trap tier `property in object`.
* The context object is modelled by its only consulted content, `context.loaders`
  (`HState.loaders`); the opaque rest of the context is `JSVal.contextVal`.
* The loader collaborator is data: `LoaderSpec` records whether `.load`/`.clear`
  are functions and what `load(id)` settles to (`Except` rejection, resolved empty
  = falsy, or a record).  Calls to `load`/`clear` are logged in `HState`.
* `_cache[p] = v` is modelled by prepending `(p, v)`; `List.lookup` reads the
  newest binding, which is observationally the JS assignment semantics.
* Getter invocation counts (`HState.calls`) instrument "the implementation
  executes"; the trap bumps the count exactly when JS would call the getter.
* The recursion of the trap into itself (getter bodies re-entering the proxy) is
  broken with a fuel parameter; all theorems use a fuel that is visibly sufficient
  (the deepest chain is access → dataValues → entityLoader).
-/

/-- JS primitive values (the subset the program distinguishes). -/
inductive Prim where
  | undef
  | null
  | boolv (b : Bool)
  | numv (n : Int)
  | strv (s : String)
deriving DecidableEq

/-- A fetched record: field name → primitive field content. -/
abbrev RecordV := List (String × Prim)

deriving instance DecidableEq for Except

/-- The loader collaborator, as observable by the program: whether `.load` and
`.clear` are functions, and what `load(id)` settles to (`Except.error` =
rejected promise, `some` record = resolved, `none` = resolved empty/falsy). -/
structure LoaderSpec where
  hasLoad : Bool
  hasClear : Bool
  loadResult : Except String (Option RecordV)
deriving DecidableEq

/-- Runtime values flowing through property accesses. -/
inductive JSVal where
  | prim (p : Prim)
  | record (r : RecordV)
  | deferred (d : Nat)
  | loaderVal (l : LoaderSpec)
  | methodVal (name : String)
  | contextVal
  | cacheVal
  | protoVal (name : String)
deriving DecidableEq

/-- Settlement state of a deferred value. -/
inductive DState where
  | pending
  | resolved (v : JSVal)
  | rejected (e : String)
deriving DecidableEq

/-- Observable state of one handle (plus the deferred heap and the
instrumentation logs). -/
structure HState where
  id : Prim
  entityType : String
  loaders : Option (List (String × LoaderSpec))
  cache : List (String × JSVal)
  defs : List (Nat × DState)
  nextD : Nat
  calls : List (String × Nat)
  loadCalls : List Prim
  clearCalls : List Prim
deriving DecidableEq

/-- Result of one property access / call: the value, or a synchronous throw. -/
abbrev AccessResult := Except String JSVal × HState

/-- A resolver: performs `proxy.p` (the `get` trap) on a state. -/
abbrev Resolver := String → HState → AccessResult

/-- A getter or method body: receives the resolver (its `this` accesses go
through the proxy) and the state. -/
abbrev GetterFn := Resolver → HState → AccessResult

abbrev GTable := List (String × GetterFn)

/-- Number of times the getter named `p` has been invoked. -/
def callCount (s : HState) (p : String) : Nat :=
  (List.lookup p s.calls).getD 0

/-- Record one invocation of the getter named `p`. -/
def bump (p : String) (s : HState) : HState :=
  { s with calls := (p, callCount s p + 1) :: s.calls }

/-- `object._cache[property]`: absent keys read as `undefined`. -/
def cacheLookup (s : HState) (p : String) : JSVal :=
  (List.lookup p s.cache).getD (JSVal.prim Prim.undef)

/-- Allocate a fresh deferred with the given settlement. -/
def mkDeferred (st : DState) (s : HState) : AccessResult :=
  (Except.ok (JSVal.deferred s.nextD),
   { s with defs := (s.nextD, st) :: s.defs, nextD := s.nextD + 1 })

def dstateOf (s : HState) (d : Nat) : Option DState :=
  List.lookup d s.defs

/-- Result of `await v`. -/
inductive AwaitRes where
  | pend
  | ok (v : JSVal)
  | err (e : String)
deriving DecidableEq

def awaitOf (s : HState) : JSVal → AwaitRes
  | .deferred d =>
    match dstateOf s d with
    | none => .pend
    | some .pending => .pend
    | some (.resolved v) => .ok v
    | some (.rejected e) => .err e
  | v => .ok v

def msgTypeError : String := "TypeError"

def msgNoLoaders : String :=
  "The proxy context.loaders is not defined. Either pass a \"loaders\" object in the context when instantiating an entity, or override the default \"entityLoader\" getter with your own logic."

def msgNoLoaderFor (et : String) : String :=
  "No loaders is defined for proxy " ++ et ++ ". Either make sure context.loaders." ++ et ++ " is defined, or override the default \"entityLoader\" getter with your own logic."

def msgLoadNotFn : String :=
  "The proxy entityLoader.load should be a function. Either make sure the \"entityLoader\" getter returns a dataLoader, or override the default \"dataValues\" getter with your own logic."

def msgClearNotFn : String :=
  "The proxy entityLoader.clear should be a function. Either make sure the \"entityLoader\" getter returns a dataLoader, or override the default \"clearCache\" method with your own logic."

/-- JS `String(v)` / template-literal conversion for the primitives used. -/
def primToString : Prim → String
  | .undef => "undefined"
  | .null => "null"
  | .boolv true => "true"
  | .boolv false => "false"
  | .numv n => toString n
  | .strv s => s

/-- `Entity <entityType> with id "<id>" does not exist.` (part_005 line 77) -/
def notFoundMsg (et : String) (idp : Prim) : String :=
  "Entity " ++ et ++ " with id \"" ++ primToString idp ++ "\" does not exist."

/-- Probing `v.load` / `v.clear` with `typeof`: a function, not a function
(config-error path), or a TypeError (member access on null/undefined). -/
inductive MemberProbe where
  | fn (l : LoaderSpec)
  | notFn
  | typeErr
deriving DecidableEq

def probeLoad : JSVal → MemberProbe
  | .loaderVal l => if l.hasLoad then .fn l else .notFn
  | .prim .null => .typeErr
  | .prim .undef => .typeErr
  | _ => .notFn

def probeClear : JSVal → MemberProbe
  | .loaderVal l => if l.hasClear then .fn l else .notFn
  | .prim .null => .typeErr
  | .prim .undef => .typeErr
  | _ => .notFn

/-- Default `entityLoader` getter (part_005 lines 43-63): reads
`this.context.loaders[this.entityType]`, throwing the configuration errors. -/
def entityLoaderGetter : GetterFn := fun _ s =>
  match s.loaders with
  | none => (Except.error msgNoLoaders, s)
  | some ls =>
    match List.lookup s.entityType ls with
    | none => (Except.error (msgNoLoaderFor s.entityType), s)
    | some l => (Except.ok (JSVal.loaderVal l), s)

/-- Default `dataValues` getter (part_005 lines 65-81): an async function that
reads `this.entityLoader` (twice: the `typeof` check and the call), awaits
`load(this.id)`, throws `notFoundMsg` on a falsy record, else resolves to it. -/
def dataValuesGetter : GetterFn := fun res s =>
  match res "entityLoader" s with
  | (Except.error e, s1) => mkDeferred (.rejected e) s1
  | (Except.ok v, s1) =>
    match probeLoad v with
    | .typeErr => mkDeferred (.rejected msgTypeError) s1
    | .notFn => mkDeferred (.rejected msgLoadNotFn) s1
    | .fn _ =>
      match res "entityLoader" s1 with
      | (Except.error e, s2) => mkDeferred (.rejected e) s2
      | (Except.ok v2, s2) =>
        match probeLoad v2 with
        | .fn l2 =>
          let s3 := { s2 with loadCalls := s2.loadCalls ++ [s2.id] }
          match l2.loadResult with
          | .error e => mkDeferred (.rejected e) s3
          | .ok none => mkDeferred (.rejected (notFoundMsg s3.entityType s3.id)) s3
          | .ok (some rec) => mkDeferred (.resolved (JSVal.record rec)) s3
        | _ => mkDeferred (.rejected msgTypeError) s2

/-- Default `exists` getter (part_005 lines 83-90): awaits `this.dataValues`,
resolving `true` on success and `false` on any failure (also a synchronous
throw during the access, which the `try` swallows). -/
def existsGetter : GetterFn := fun res s =>
  match res "dataValues" s with
  | (Except.error _, s1) => mkDeferred (.resolved (JSVal.prim (Prim.boolv false))) s1
  | (Except.ok v, s1) =>
    match awaitOf s1 v with
    | .pend => mkDeferred .pending s1
    | .ok _ => mkDeferred (.resolved (JSVal.prim (Prim.boolv true))) s1
    | .err _ => mkDeferred (.resolved (JSVal.prim (Prim.boolv false))) s1

/-- Default `assertExists` method (part_005 lines 92-94): awaits
`this.dataValues`, re-raising failures. -/
def assertExistsMethod : GetterFn := fun res s =>
  match res "dataValues" s with
  | (Except.error e, s1) => mkDeferred (.rejected e) s1
  | (Except.ok v, s1) =>
    match awaitOf s1 v with
    | .pend => mkDeferred .pending s1
    | .ok _ => mkDeferred (.resolved (JSVal.prim Prim.undef)) s1
    | .err e => mkDeferred (.rejected e) s1

/-- Default `clearCache` method (part_005 lines 96-107): checks
`typeof this.entityLoader.clear`, resets `this._cache = \x7b\x7d`, then calls
`this.entityLoader.clear(this.id)` — a second access of `entityLoader` that
goes through the (now empty) cache again. -/
def clearCacheMethod : GetterFn := fun res s =>
  match res "entityLoader" s with
  | (Except.error e, s1) => (Except.error e, s1)
  | (Except.ok v, s1) =>
    match probeClear v with
    | .typeErr => (Except.error msgTypeError, s1)
    | .notFn => (Except.error msgClearNotFn, s1)
    | .fn _ =>
      let s2 := { s1 with cache := [] }
      match res "entityLoader" s2 with
      | (Except.error e, s3) => (Except.error e, s3)
      | (Except.ok v2, s3) =>
        match probeClear v2 with
        | .fn _ => (Except.ok (JSVal.prim Prim.undef),
                    { s3 with clearCalls := s3.clearCalls ++ [s3.id] })
        | _ => (Except.error msgTypeError, s3)

/-- Properties found on the target's prototype chain
(`property in object.__proto__`, part_005 line 132): `F.prototype.constructor`
plus the `Object.prototype` members. -/
def protoProps : List String :=
  ["constructor", "hasOwnProperty", "isPrototypeOf", "propertyIsEnumerable",
   "toLocaleString", "toString", "valueOf",
   "__defineGetter__", "__defineSetter__", "__lookupGetter__",
   "__lookupSetter__", "__proto__"]

/-- Settlement of `dataValuesPromise.then((dataValues) => dataValues[p])`
for a source deferred `d` (part_005 line 141). -/
def thenProject (s : HState) (d : Nat) (p : String) : DState :=
  match dstateOf s d with
  | none => .pending
  | some .pending => .pending
  | some (.resolved v) =>
    match v with
    | .record r => .resolved (JSVal.prim ((List.lookup p r).getD Prim.undef))
    | .prim .null => .rejected msgTypeError
    | .prim .undef => .rejected msgTypeError
    | _ => .resolved (JSVal.prim Prim.undef)
  | some (.rejected e) => .rejected e

/-- One pass of the `get` trap (part_005 lines 123-149), with the recursive
re-entries (`proxy.dataValues` in the fallback, getter invocation with the
proxy as receiver) taken from `rec`. -/
def resolveStep (gs : GTable) (ms : List String) (rec : Resolver)
    (p : String) (s : HState) : AccessResult :=
  if p = "then" then (Except.ok (JSVal.prim Prim.null), s)
  else if p = "id" then (Except.ok (JSVal.prim s.id), s)
  else if p = "context" then (Except.ok JSVal.contextVal, s)
  else if p = "entityType" then (Except.ok (JSVal.prim (Prim.strv s.entityType)), s)
  else if p = "_cache" then (Except.ok JSVal.cacheVal, s)
  else if protoProps.contains p then (Except.ok (JSVal.protoVal p), s)
  else if ms.contains p then (Except.ok (JSVal.methodVal p), s)
  else
    match List.lookup p gs with
    | none =>
      match rec "dataValues" s with
      | (Except.error e, s1) => (Except.error e, s1)
      | (Except.ok (JSVal.deferred d), s1) => mkDeferred (thenProject s1 d p) s1
      | (Except.ok _, s1) => (Except.error msgTypeError, s1)
    | some g =>
      if cacheLookup s p = JSVal.prim Prim.undef then
        match g rec (bump p s) with
        | (Except.error e, s1) => (Except.error e, s1)
        | (Except.ok v, s1) => (Except.ok v, { s1 with cache := (p, v) :: s1.cache })
      else (Except.ok (cacheLookup s p), s)

/-- The `get` trap with fuel for its self-re-entries. -/
def resolveN (gs : GTable) (ms : List String) : Nat → String → HState → AccessResult
  | 0, _, s => (Except.error "fuel exhausted (model artifact)", s)
  | Nat.succ n, p, s => resolveStep gs ms (resolveN gs ms n) p s

/-- `tbl.k = tbl.k || v` (the in-place default-merging pattern of
part_005 lines 43-107; present entries are functions, hence truthy). -/
def setDefault {α : Type} (tbl : List (String × α)) (k : String) (v : α) :
    List (String × α) :=
  match List.lookup k tbl with
  | some _ => tbl
  | none => tbl ++ [(k, v)]

/-- Behaviour-level merged getter table. -/
def mergeGetters (u : GTable) : GTable :=
  setDefault (setDefault (setDefault u "entityLoader" entityLoaderGetter)
    "dataValues" dataValuesGetter) "exists" existsGetter

/-- Behaviour-level merged method table. -/
def mergeMethods (u : GTable) : GTable :=
  setDefault (setDefault u "assertExists" assertExistsMethod)
    "clearCache" clearCacheMethod

def methodNamesOf (t : GTable) : List String := t.map Prod.fst

/-- Invoking a method obtained from the trap: its body runs with the proxy as
receiver, i.e. with the resolver. -/
def callMethod (gs : GTable) (ms : List String) (fuel : Nat)
    (body : GetterFn) (s : HState) : AccessResult :=
  body (resolveN gs ms fuel) s

/-- The state of a just-constructed handle (part_005 lines 117-120). -/
def freshState (idv : Prim) (et : String)
    (ldrs : Option (List (String × LoaderSpec))) : HState :=
  { id := idv, entityType := et, loaders := ldrs, cache := [], defs := [],
    nextD := 0, calls := [], loadCalls := [], clearCalls := [] }

def constructErrMsg (idv : Prim) : String :=
  "Proxy should be instantiated with an id, but got: " ++ primToString idv ++ "."

/-- The returned constructor (part_005 lines 109-121): rejects null/undefined
ids, otherwise builds a fresh handle. -/
def construct (et : String) (idv : Prim)
    (ldrs : Option (List (String × LoaderSpec))) : Except String HState :=
  if idv = Prim.null ∨ idv = Prim.undef then Except.error (constructErrMsg idv)
  else Except.ok (freshState idv et ldrs)

/-- The opening-brace character, written via its code point so the model file
stays brace-free in literals. -/
def lbrace : Char := Char.ofNat 123

/-- Scan for the regex `^[^\x7b]+?=>` of part_005 lines 17 and 34: some
nonempty brace-free prefix of the source immediately followed by `=>`.
`seen` records that at least one (brace-free) character precedes the cursor. -/
def arrowScan : List Char → Bool → Bool
  | [], _ => false
  | c :: rest, seen =>
    if c = lbrace then false
    else if seen = true ∧ c = '=' ∧ rest.head? = some '>' then true
    else arrowScan rest true

/-- `/^[^\x7b]+?=>/.test(callback.toString())` — the source-text heuristic the
code uses to detect arrow functions. -/
def arrowSrcTest (s : String) : Bool := arrowScan s.toList false

/-- A declared getter/method as the validation stage observes it: its `typeof`,
its `.length` (declared formal parameters), its `.toString()` source text, and
the ground truth of whether it actually is an arrow function (the latter is
not observable to the code, which only has the former three). -/
structure Decl where
  tyof : String
  arity : Nat
  src : String
  isArrow : Bool
deriving DecidableEq

/-- Validation errors, carrying the offending name and the observed datum
(part_005 lines 2-41). -/
inductive ValErr where
  | getterType (name tyof : String)
  | getterArity (name : String) (n : Nat)
  | getterArrow (name : String)
  | methodType (name tyof : String)
  | methodArrow (name : String)
deriving DecidableEq

/-- The exact error message texts of part_005 lines 2-41. -/
def renderValErr : ValErr → String
  | .getterType g t =>
    "Proxy getters should be functions, but getter \"" ++ g ++ "\" is of type " ++ t ++ "."
  | .getterArity g n =>
    "Proxy getters should not accept any arguments, but getter \"" ++ g ++ "\" accepts " ++ toString n ++ " argument(s)."
  | .getterArrow g =>
    "Proxy getters should not be arrow functions, but getter \"" ++ g ++ "\" is. Replace its declaration with \"" ++ g ++ "() \x7b...\x7d\" or \"" ++ g ++ ": function() \x7b...\x7d\" in order to enable \"this\" binding."
  | .methodType m t =>
    "Proxy methods should be functions, but method \"" ++ m ++ "\" is of type " ++ t ++ "."
  | .methodArrow m =>
    "Proxy methods should not be arrow functions, but method \"" ++ m ++ "\" is. Replace its declaration with \"" ++ m ++ "() \x7b...\x7d\" or \"" ++ m ++ ": function() \x7b...\x7d\" in order to enable \"this\" binding."

/-- Getter validation (part_005 lines 2-24): type, then arity, then the arrow
source test; the first failure throws. -/
def validateGetters : List (String × Decl) → Option ValErr
  | [] => none
  | (g, d) :: rest =>
    if d.tyof ≠ "function" then some (ValErr.getterType g d.tyof)
    else if d.arity ≠ 0 then some (ValErr.getterArity g d.arity)
    else if arrowSrcTest d.src then some (ValErr.getterArrow g)
    else validateGetters rest

/-- Method validation (part_005 lines 26-41): type and arrow test, no arity
check. -/
def validateMethods : List (String × Decl) → Option ValErr
  | [] => none
  | (m, d) :: rest =>
    if d.tyof ≠ "function" then some (ValErr.methodType m d.tyof)
    else if arrowSrcTest d.src then some (ValErr.methodArrow m)
    else validateMethods rest

def validateAll (gs ms : List (String × Decl)) : Option ValErr :=
  match validateGetters gs with
  | some e => some e
  | none => validateMethods ms

/-- The built-in declarations merged after validation.  They are ordinary
`function` expressions of arity 0 (their source text is never inspected:
validation runs before the merge). -/
def builtinDecl : Decl := { tyof := "function", arity := 0, src := "function() ...", isArrow := false }

/-- Declaration-level view of the merge (part_005 lines 43-90): the caller's
`getters` object after `createProxy` returned. -/
def mergeGetterDecls (u : List (String × Decl)) : List (String × Decl) :=
  setDefault (setDefault (setDefault u "entityLoader" builtinDecl)
    "dataValues" builtinDecl) "exists" builtinDecl

/-- Declaration-level view of the method merge (part_005 lines 92-107). -/
def mergeMethodDecls (u : List (String × Decl)) : List (String × Decl) :=
  setDefault (setDefault u "assertExists" builtinDecl) "clearCache" builtinDecl

/-- `createProxy` at declaration level: validate, then merge the built-ins
into the caller-supplied tables (which the JS code mutates in place; the
returned pair is the post-call content of those two objects). -/
def createProxy (gs ms : List (String × Decl)) :
    Except ValErr (List (String × Decl) × List (String × Decl)) :=
  match validateAll gs ms with
  | some e => Except.error e
  | none => Except.ok (mergeGetterDecls gs, mergeMethodDecls ms)

/-- A synchronous getter with a fixed return value. -/
def constGetter (v : JSVal) : GetterFn := fun _ s => (Except.ok v, s)

/-- An async getter whose deferred has not settled yet. -/
def pendingGetter : GetterFn := fun _ s => mkDeferred DState.pending s

/-- An async getter whose deferred settles as a failure. -/
def failingGetter (e : String) : GetterFn := fun _ s => mkDeferred (DState.rejected e) s

/-- A getter that throws synchronously. -/
def throwingGetter (e : String) : GetterFn := fun _ s => (Except.error e, s)

/-- Property names that never hit trap tiers 1-3 (the `then` guard, the own
fields, the prototype chain). -/
def freeNameB (p : String) : Bool :=
  !(p == "then") && !(p == "id") && !(p == "context") && !(p == "entityType")
    && !(p == "_cache") && !(protoProps.contains p)

/-- The default method-name table of a class with no user methods. -/
def defMethodNames : List String := methodNamesOf (mergeMethods [])

/-- The condition under which claim C8 says validation must raise: some getter
is not a function, has one or more parameters, or is an arrow function; or
some method is not a function or is an arrow function. -/
def c8ClaimRaises (gs ms : List (String × Decl)) : Bool :=
  gs.any (fun e => !(e.2.tyof == "function") || decide (1 ≤ e.2.arity) || e.2.isArrow)
    || ms.any (fun e => !(e.2.tyof == "function") || e.2.isArrow)

/-- A genuine arrow function (`isArrow = true`) whose parameter list contains a
destructuring brace, so its source text has no `=>` before the first brace:
`(\x7b a \x7d) => a`. -/
def arrowMethodDecl : Decl :=
  { tyof := "function", arity := 1, src := "(\x7b a \x7d) => a", isArrow := true }

/-- A rebindable zero-parameter `function` getter declaration. -/
def fnOKDecl : Decl :=
  { tyof := "function", arity := 0, src := "function() \x7b return this.id \x7d",
    isArrow := false }

/-- An ordinary `function` getter declaring one formal parameter. -/
def arityOneDecl : Decl :=
  { tyof := "function", arity := 1, src := "function(x) \x7b return x \x7d",
    isArrow := false }

/-- What the default `dataValues` body settles to, given the loader's fetch
behaviour: rejection propagates, a falsy record raises the NotFound message,
a record resolves. -/
def dvSettle (l : LoaderSpec) (et : String) (idv : Prim) : DState :=
  match l.loadResult with
  | .error e => DState.rejected e
  | .ok none => DState.rejected (notFoundMsg et idv)
  | .ok (some rec) => DState.resolved (JSVal.record rec)

/-- The loader used in the spec's end-to-end example. -/
def elonLoader : LoaderSpec :=
  { hasLoad := true, hasClear := true,
    loadResult := Except.ok (some [("name", Prim.strv "Elon"),
                                   ("email", Prim.strv "elon@spacex.com")]) }

/-- A loader whose fetch resolves empty (falsy). -/
def emptyLoader : LoaderSpec :=
  { hasLoad := true, hasClear := true, loadResult := Except.ok none }

/-- Whether the built-in `dataValues` computation succeeds on a handle with
the given `context.loaders` and entity type: there must be a loaders object,
an entry for the type, a callable `load`, and a fetch resolving to a truthy
record. -/
def dvSucceeds (ldrs : Option (List (String × LoaderSpec))) (et : String) : Bool :=
  match ldrs with
  | none => false
  | some ls =>
    match List.lookup et ls with
    | none => false
    | some l =>
      if l.hasLoad then
        match l.loadResult with
        | .ok (some _) => true
        | _ => false
      else false

/-- State after one fallback access of `p` on top of `dataValues` post-state
`sD`: one fresh deferred allocated. -/
def fbState1 (sD : HState) (p : String) : HState :=
  { sD with defs := (sD.nextD, thenProject sD 0 p) :: sD.defs, nextD := sD.nextD + 1 }

/-- State after a second fallback access of `p`: another fresh deferred. -/
def fbState2 (sD : HState) (p : String) : HState :=
  { sD with
    defs := (sD.nextD + 1, thenProject (fbState1 sD p) 0 p)
      :: (sD.nextD, thenProject sD 0 p) :: sD.defs,
    nextD := sD.nextD + 2 }

lemma freeName_spec (p : String) (h : freeNameB p = true) :
    p ≠ "then" ∧ p ≠ "id" ∧ p ≠ "context" ∧ p ≠ "entityType" ∧ p ≠ "_cache"
      ∧ protoProps.contains p = false := by
  simp only [freeNameB, Bool.and_eq_true, Bool.not_eq_true', beq_eq_false_iff_ne] at h
  exact ⟨h.1.1.1.1.1, h.1.1.1.1.2, h.1.1.1.2, h.1.1.2, h.1.2, h.2⟩

/-- Unfolding the trap at a property carried by a declared getter. -/
lemma resolveN_getter_step (gs : GTable) (ms : List String) (n : Nat) (p : String)
    (s : HState) (g : GetterFn)
    (hfree : freeNameB p = true) (hm : ms.contains p = false)
    (hg : List.lookup p gs = some g) :
    resolveN gs ms (n + 1) p s =
      (if cacheLookup s p = JSVal.prim Prim.undef then
        match g (resolveN gs ms n) (bump p s) with
        | (Except.error e, s1) => (Except.error e, s1)
        | (Except.ok v, s1) => (Except.ok v, { s1 with cache := (p, v) :: s1.cache })
      else (Except.ok (cacheLookup s p), s)) := by
  obtain ⟨h1, h2, h3, h4, h5, h6⟩ := freeName_spec p hfree
  simp only [resolveN, resolveStep, h1, h2, h3, h4, h5, h6, hm, hg,
    if_false, Bool.false_eq_true, ite_false]

/-- Unfolding the trap at an undeclared property (the fallback tier). -/
lemma resolveN_fallback_step (gs : GTable) (ms : List String) (n : Nat) (p : String)
    (s : HState)
    (hfree : freeNameB p = true) (hm : ms.contains p = false)
    (hg : List.lookup p gs = none) :
    resolveN gs ms (n + 1) p s =
      (match resolveN gs ms n "dataValues" s with
       | (Except.error e, s1) => (Except.error e, s1)
       | (Except.ok (JSVal.deferred d), s1) => mkDeferred (thenProject s1 d p) s1
       | (Except.ok _, s1) => (Except.error msgTypeError, s1)) := by
  obtain ⟨h1, h2, h3, h4, h5, h6⟩ := freeName_spec p hfree
  simp only [resolveN, resolveStep, h1, h2, h3, h4, h5, h6, hm, hg,
    if_false, Bool.false_eq_true, ite_false]

/-- `setDefault` never disturbs the head entry. -/
lemma setDefault_head {α : Type} (a : String) (g : α) (tbl : List (String × α))
    (k : String) (v : α) :
    ∃ rest, setDefault ((a, g) :: tbl) k v = (a, g) :: rest := by
  unfold setDefault
  cases List.lookup k ((a, g) :: tbl) with
  | none => exact ⟨tbl ++ [(k, v)], rfl⟩
  | some w => exact ⟨tbl, rfl⟩

/-- A user declaration heads the merged table, so lookup finds it (user
declarations shadow built-ins of the same name). -/
lemma lookup_mergeGetters_head (a : String) (g : GetterFn) (tbl : GTable) :
    List.lookup a (mergeGetters ((a, g) :: tbl)) = some g := by
  unfold mergeGetters
  obtain ⟨r1, e1⟩ := setDefault_head a g tbl "entityLoader" entityLoaderGetter
  rw [e1]
  obtain ⟨r2, e2⟩ := setDefault_head a g r1 "dataValues" dataValuesGetter
  rw [e2]
  obtain ⟨r3, e3⟩ := setDefault_head a g r2 "exists" existsGetter
  rw [e3]
  simp [List.lookup]

lemma callCount_bump_self (p : String) (s : HState) :
    callCount (bump p s) p = callCount s p + 1 := by
  simp [callCount, bump, List.lookup]

lemma callCount_bump_other (p q : String) (s : HState) (h : q ≠ p) :
    callCount (bump p s) q = callCount s q := by
  simp [callCount, bump, List.lookup, beq_eq_false_iff_ne.mpr h]

lemma cacheLookup_cons_self (p : String) (v : JSVal) (s : HState) (c : List (String × JSVal)) :
    cacheLookup { s with cache := (p, v) :: c } p = v := by
  simp [cacheLookup, List.lookup]

lemma cacheLookup_of_cache_eq (s : HState) (p : String) (v : JSVal)
    (c : List (String × JSVal)) (h : s.cache = (p, v) :: c) : cacheLookup s p = v := by
  simp [cacheLookup, h, List.lookup]

lemma callCount_fresh (p : String) (idv : Prim) (et : String)
    (ldrs : Option (List (String × LoaderSpec))) :
    callCount (freshState idv et ldrs) p = 0 := by
  simp [callCount, freshState, List.lookup]

lemma cacheLookup_fresh (p : String) (idv : Prim) (et : String)
    (ldrs : Option (List (String × LoaderSpec))) :
    cacheLookup (freshState idv et ldrs) p = JSVal.prim Prim.undef := by
  simp [cacheLookup, freshState, List.lookup]

lemma lookup_append_some {α : Type} (n : String) (d : α)
    (tbl rest : List (String × α)) (h : List.lookup n tbl = some d) :
    List.lookup n (tbl ++ rest) = some d := by
  induction tbl with
  | nil => simp [List.lookup] at h
  | cons hd tl ih =>
    obtain ⟨a, b⟩ := hd
    simp only [List.cons_append, List.lookup] at h ⊢
    cases hq : (n == a) with
    | true => rw [hq] at h; simpa [hq] using h
    | false => rw [hq] at h; simpa [hq] using ih h

lemma lookup_append_none {α : Type} (n : String)
    (tbl rest : List (String × α)) (h : List.lookup n tbl = none) :
    List.lookup n (tbl ++ rest) = List.lookup n rest := by
  induction tbl with
  | nil => simp
  | cons hd tl ih =>
    obtain ⟨a, b⟩ := hd
    simp only [List.cons_append, List.lookup] at h ⊢
    cases hq : (n == a) with
    | true => rw [hq] at h; simp at h
    | false => rw [hq] at h; simpa [hq] using ih h

lemma lookup_setDefault_preserve {α : Type} (n k : String) (v d : α)
    (tbl : List (String × α)) (h : List.lookup n tbl = some d) :
    List.lookup n (setDefault tbl k v) = some d := by
  unfold setDefault
  cases List.lookup k tbl with
  | none => exact lookup_append_some n d tbl [(k, v)] h
  | some w => exact h

lemma lookup_setDefault_isSome {α : Type} (k : String) (v : α)
    (tbl : List (String × α)) :
    (List.lookup k (setDefault tbl k v)).isSome = true := by
  unfold setDefault
  cases hq : List.lookup k tbl with
  | some w => simp [hq]
  | none => rw [lookup_append_none k tbl [(k, v)] hq]; simp [List.lookup]

lemma isSome_setDefault_mono {α : Type} (n k : String) (v : α)
    (tbl : List (String × α)) (h : (List.lookup n tbl).isSome = true) :
    (List.lookup n (setDefault tbl k v)).isSome = true := by
  obtain ⟨d, hd⟩ := Option.isSome_iff_exists.mp h
  rw [lookup_setDefault_preserve n k v d tbl hd]
  rfl

lemma validateGetters_none_iff (gs : List (String × Decl)) :
    validateGetters gs = none ↔
      ∀ e ∈ gs, e.2.tyof = "function" ∧ e.2.arity = 0 ∧ arrowSrcTest e.2.src = false := by
  induction gs with
  | nil => simp [validateGetters]
  | cons hd tl ih =>
    obtain ⟨g, d⟩ := hd
    simp only [validateGetters, List.mem_cons]
    split_ifs with h1 h2 h3
    · constructor
      · intro h; simp at h
      · intro h; exact absurd (h (g, d) (Or.inl rfl)).1 h1
    · constructor
      · intro h; simp at h
      · intro h; exact absurd (h (g, d) (Or.inl rfl)).2.1 h2
    · constructor
      · intro h; simp at h
      · intro h
        have := (h (g, d) (Or.inl rfl)).2.2
        rw [h3] at this; simp at this
    · push_neg at h1 h2
      rw [ih]
      constructor
      · intro h e he
        rcases he with he | he
        · rw [he]
          exact ⟨h1, h2, by simpa using h3⟩
        · exact h e he
      · intro h e he
        exact h e (Or.inr he)

lemma validateMethods_none_iff (ms : List (String × Decl)) :
    validateMethods ms = none ↔
      ∀ e ∈ ms, e.2.tyof = "function" ∧ arrowSrcTest e.2.src = false := by
  induction ms with
  | nil => simp [validateMethods]
  | cons hd tl ih =>
    obtain ⟨m, d⟩ := hd
    simp only [validateMethods, List.mem_cons]
    split_ifs with h1 h2
    · constructor
      · intro h; simp at h
      · intro h; exact absurd (h (m, d) (Or.inl rfl)).1 h1
    · constructor
      · intro h; simp at h
      · intro h
        have := (h (m, d) (Or.inl rfl)).2
        rw [h2] at this; simp at this
    · push_neg at h1
      rw [ih]
      constructor
      · intro h e he
        rcases he with he | he
        · rw [he]
          exact ⟨h1, by simpa using h2⟩
        · exact h e he
      · intro h e he
        exact h e (Or.inr he)

/-- C7: constructing a handle fails with the ConstructionError message
`Proxy should be instantiated with an id, but got: <id>.` exactly when the
supplied id is null or undefined; for every other id (including falsy ones
such as `0` or the empty string) construction yields the fresh handle whose
`id`/`entityType` are the supplied values, with an empty cache and no
loader calls (no I/O). -/
theorem c7_construction (et : String) (idv : Prim)
    (ldrs : Option (List (String × LoaderSpec))) :
    (construct et idv ldrs = Except.error (constructErrMsg idv)
       ↔ (idv = Prim.null ∨ idv = Prim.undef)) ∧
    (idv ≠ Prim.null → idv ≠ Prim.undef →
       construct et idv ldrs = Except.ok (freshState idv et ldrs)
         ∧ (freshState idv et ldrs).id = idv
         ∧ (freshState idv et ldrs).entityType = et
         ∧ (freshState idv et ldrs).cache = []
         ∧ (freshState idv et ldrs).loadCalls = []
         ∧ (freshState idv et ldrs).clearCalls = []) := by
  constructor
  · constructor
    · intro h
      by_contra hc
      push_neg at hc
      rw [construct, if_neg (by simp [hc.1, hc.2])] at h
      simp at h
    · intro h
      rw [construct, if_pos h]
  · intro h1 h2
    refine ⟨?_, rfl, rfl, rfl, rfl, rfl⟩
    rw [construct, if_neg (by simp [h1, h2])]

/-- Witness for C7 at the falsy id `0` and at `null`. -/
theorem c7_construction_witness :
    construct "User" (Prim.numv 0) none = Except.ok (freshState (Prim.numv 0) "User" none)
      ∧ construct "User" Prim.null none = Except.error (constructErrMsg Prim.null) :=
  ⟨((c7_construction "User" (Prim.numv 0) none).2 (by decide) (by decide)).1,
   (c7_construction "User" Prim.null none).1.mpr (Or.inl rfl)⟩

/-- C8 counterexample: a method that is an arrow function passes validation,
because the code's arrow detection is the source-text test `/^[^\x7b]+?=>/`,
which does not fire when the parameter list contains a brace.  So "raises … if
and only if …" is false at this input. -/
theorem c8_validation_counterexample :
    validateAll [] [("withAuthor", arrowMethodDecl)] = none
      ∧ arrowMethodDecl.isArrow = true
      ∧ ¬((validateAll [] [("withAuthor", arrowMethodDecl)]).isSome
            = c8ClaimRaises [] [("withAuthor", arrowMethodDecl)]) := by decide

/-- C8 (amended): validation succeeds iff every declared getter is a function
of arity 0 whose source text does not match the arrow heuristic (`=>` before
the first brace), and every declared method is a function whose source text
does not match the heuristic; methods of any arity are accepted.  (On failure
the raised error names the offending declaration and the observed datum, by
construction of `ValErr`/`renderValErr`.) -/
theorem c8_validation_amended (gs ms : List (String × Decl)) :
    validateAll gs ms = none ↔
      ((∀ e ∈ gs, e.2.tyof = "function" ∧ e.2.arity = 0 ∧ arrowSrcTest e.2.src = false)
        ∧ (∀ e ∈ ms, e.2.tyof = "function" ∧ arrowSrcTest e.2.src = false)) := by
  unfold validateAll
  cases hg : validateGetters gs with
  | some e =>
    have hng : ¬∀ e ∈ gs, e.2.tyof = "function" ∧ e.2.arity = 0 ∧ arrowSrcTest e.2.src = false := by
      intro hc
      rw [(validateGetters_none_iff gs).mpr hc] at hg
      simp at hg
    simp only []
    constructor
    · intro h; simp at h
    · intro h; exact absurd h.1 hng
  | none =>
    have hgs := (validateGetters_none_iff gs).mp hg
    simp only [validateMethods_none_iff]
    constructor
    · intro h; exact ⟨hgs, h⟩
    · intro h; exact h.2

/-- Witness for C8 (amended): a well-formed getter table validates, and a
table with an arity-1 getter does not. -/
theorem c8_validation_amended_witness :
    validateAll [("fullName", fnOKDecl)] [] = none
      ∧ ¬(validateAll [("bad", arityOneDecl)] [] = none) :=
  ⟨(c8_validation_amended [("fullName", fnOKDecl)] []).mpr (by decide),
   fun h => by
     have := (c8_validation_amended [("bad", arityOneDecl)] []).mp h
     have h1 := (this.1 ("bad", arityOneDecl) (by simp)).2.1
     exact absurd h1 (by decide)⟩

/-- C10: after a successful `createProxy`, the caller's getter table has
gained `entityLoader`, `dataValues` and `exists`, and the caller's method
table has gained `assertExists` and `clearCache` (the JS code assigns these
into the caller-supplied objects in place); every entry the caller did
declare is kept unchanged at its name. -/
theorem c10_builtin_merge (gs ms : List (String × Decl))
    (h : validateAll gs ms = none) :
    createProxy gs ms = Except.ok (mergeGetterDecls gs, mergeMethodDecls ms)
      ∧ (List.lookup "entityLoader" (mergeGetterDecls gs)).isSome = true
      ∧ (List.lookup "dataValues" (mergeGetterDecls gs)).isSome = true
      ∧ (List.lookup "exists" (mergeGetterDecls gs)).isSome = true
      ∧ (List.lookup "assertExists" (mergeMethodDecls ms)).isSome = true
      ∧ (List.lookup "clearCache" (mergeMethodDecls ms)).isSome = true
      ∧ (∀ n d, List.lookup n gs = some d → List.lookup n (mergeGetterDecls gs) = some d)
      ∧ (∀ n d, List.lookup n ms = some d → List.lookup n (mergeMethodDecls ms) = some d) := by
  refine ⟨by rw [createProxy, h], ?_, ?_, ?_, ?_, ?_, ?_, ?_⟩
  · exact isSome_setDefault_mono _ _ _ _
      (isSome_setDefault_mono _ _ _ _ (lookup_setDefault_isSome _ _ gs))
  · exact isSome_setDefault_mono _ _ _ _
      (lookup_setDefault_isSome _ _ (setDefault gs "entityLoader" builtinDecl))
  · exact lookup_setDefault_isSome _ _ _
  · exact isSome_setDefault_mono _ _ _ _ (lookup_setDefault_isSome _ _ ms)
  · exact lookup_setDefault_isSome _ _ _
  · intro n d hd
    exact lookup_setDefault_preserve _ _ _ _ _
      (lookup_setDefault_preserve _ _ _ _ _
        (lookup_setDefault_preserve _ _ _ _ _ hd))
  · intro n d hd
    exact lookup_setDefault_preserve _ _ _ _ _
      (lookup_setDefault_preserve _ _ _ _ _ hd)

/-- Witness for C10 at a one-getter table. -/
theorem c10_builtin_merge_witness :
    createProxy [("fullName", fnOKDecl)] []
        = Except.ok (mergeGetterDecls [("fullName", fnOKDecl)], mergeMethodDecls [])
      ∧ (List.lookup "entityLoader" (mergeGetterDecls [("fullName", fnOKDecl)])).isSome = true
      ∧ List.lookup "fullName" (mergeGetterDecls [("fullName", fnOKDecl)]) = some fnOKDecl :=
  ⟨(c10_builtin_merge [("fullName", fnOKDecl)] [] (by decide)).1,
   (c10_builtin_merge [("fullName", fnOKDecl)] [] (by decide)).2.1,
   (c10_builtin_merge [("fullName", fnOKDecl)] [] (by decide)).2.2.2.2.2.2.1
     "fullName" fnOKDecl (by decide)⟩

/-- C1 counterexample: a declared synchronous getter whose fixed return value
is `undefined` is re-invoked on every access — both reads do return the
identical value, but the implementation executes twice, because the cache
test `_cache[p] === undefined` cannot distinguish a cached `undefined` from
an empty slot. -/
theorem c1_getter_caching_counterexample :
    (resolveN (mergeGetters [("foo", constGetter (JSVal.prim Prim.undef))])
        defMethodNames 6 "foo" (freshState (Prim.strv "k1") "User" none)).1
      = Except.ok (JSVal.prim Prim.undef)
    ∧ callCount
        (resolveN (mergeGetters [("foo", constGetter (JSVal.prim Prim.undef))])
          defMethodNames 6 "foo"
          (resolveN (mergeGetters [("foo", constGetter (JSVal.prim Prim.undef))])
            defMethodNames 6 "foo" (freshState (Prim.strv "k1") "User" none)).2).2 "foo"
      = 2
    ∧ ¬(callCount
        (resolveN (mergeGetters [("foo", constGetter (JSVal.prim Prim.undef))])
          defMethodNames 6 "foo"
          (resolveN (mergeGetters [("foo", constGetter (JSVal.prim Prim.undef))])
            defMethodNames 6 "foo" (freshState (Prim.strv "k1") "User" none)).2).2 "foo"
      = 1) := by decide

/-- C1 (amended): for every declared getter and every fresh handle, two
accesses return the identical cached value and the implementation executes
exactly once, provided the getter's result is not `undefined`: stated for a
synchronous getter with any fixed result `v ≠ undefined`, and for an async
getter read twice before settlement, where both reads return the *same*
deferred reference.  (A getter returning `undefined` is re-invoked per
access, see the counterexample.) -/
theorem c1_getter_caching_amended (n : Nat) (name : String) (v : JSVal)
    (idv : Prim) (et : String) (ldrs : Option (List (String × LoaderSpec)))
    (hfree : freeNameB name = true)
    (hm : defMethodNames.contains name = false)
    (hv : v ≠ JSVal.prim Prim.undef) :
    ((resolveN (mergeGetters [(name, constGetter v)]) defMethodNames (n + 1) name
        (freshState idv et ldrs)).1 = Except.ok v
      ∧ (resolveN (mergeGetters [(name, constGetter v)]) defMethodNames (n + 1) name
          (resolveN (mergeGetters [(name, constGetter v)]) defMethodNames (n + 1) name
            (freshState idv et ldrs)).2).1 = Except.ok v
      ∧ callCount
          (resolveN (mergeGetters [(name, constGetter v)]) defMethodNames (n + 1) name
            (resolveN (mergeGetters [(name, constGetter v)]) defMethodNames (n + 1) name
              (freshState idv et ldrs)).2).2 name = 1)
    ∧ ((resolveN (mergeGetters [(name, pendingGetter)]) defMethodNames (n + 1) name
          (freshState idv et ldrs)).1 = Except.ok (JSVal.deferred 0)
      ∧ (resolveN (mergeGetters [(name, pendingGetter)]) defMethodNames (n + 1) name
          (resolveN (mergeGetters [(name, pendingGetter)]) defMethodNames (n + 1) name
            (freshState idv et ldrs)).2).1 = Except.ok (JSVal.deferred 0)
      ∧ dstateOf
          (resolveN (mergeGetters [(name, pendingGetter)]) defMethodNames (n + 1) name
            (resolveN (mergeGetters [(name, pendingGetter)]) defMethodNames (n + 1) name
              (freshState idv et ldrs)).2).2 0 = some DState.pending
      ∧ callCount
          (resolveN (mergeGetters [(name, pendingGetter)]) defMethodNames (n + 1) name
            (resolveN (mergeGetters [(name, pendingGetter)]) defMethodNames (n + 1) name
              (freshState idv et ldrs)).2).2 name = 1) := by
  constructor
  · have hlook := lookup_mergeGetters_head name (constGetter v) []
    have h1 : resolveN (mergeGetters [(name, constGetter v)]) defMethodNames (n + 1) name
        (freshState idv et ldrs)
        = (Except.ok v,
           { bump name (freshState idv et ldrs) with
             cache := (name, v) :: (bump name (freshState idv et ldrs)).cache }) := by
      rw [resolveN_getter_step _ _ n name _ _ hfree hm hlook,
        if_pos (cacheLookup_fresh name idv et ldrs)]
      rfl
    have h2 : resolveN (mergeGetters [(name, constGetter v)]) defMethodNames (n + 1) name
        ({ bump name (freshState idv et ldrs) with
           cache := (name, v) :: (bump name (freshState idv et ldrs)).cache })
        = (Except.ok v,
           { bump name (freshState idv et ldrs) with
             cache := (name, v) :: (bump name (freshState idv et ldrs)).cache }) := by
      rw [resolveN_getter_step _ _ n name _ _ hfree hm hlook,
        if_neg (by rw [cacheLookup_cons_self]; exact hv),
        cacheLookup_cons_self]
    rw [h1, h2]
    refine ⟨rfl, rfl, ?_⟩
    simp [callCount, bump, freshState, List.lookup]
  · have hlook := lookup_mergeGetters_head name pendingGetter []
    have h1 : resolveN (mergeGetters [(name, pendingGetter)]) defMethodNames (n + 1) name
        (freshState idv et ldrs)
        = (Except.ok (JSVal.deferred 0),
           { bump name (freshState idv et ldrs) with
             defs := [(0, DState.pending)], nextD := 1,
             cache := (name, JSVal.deferred 0) :: (bump name (freshState idv et ldrs)).cache }) := by
      rw [resolveN_getter_step _ _ n name _ _ hfree hm hlook,
        if_pos (cacheLookup_fresh name idv et ldrs)]
      rfl
    have h2 : resolveN (mergeGetters [(name, pendingGetter)]) defMethodNames (n + 1) name
        ({ bump name (freshState idv et ldrs) with
           defs := [(0, DState.pending)], nextD := 1,
           cache := (name, JSVal.deferred 0) :: (bump name (freshState idv et ldrs)).cache })
        = (Except.ok (JSVal.deferred 0),
           { bump name (freshState idv et ldrs) with
             defs := [(0, DState.pending)], nextD := 1,
             cache := (name, JSVal.deferred 0) :: (bump name (freshState idv et ldrs)).cache }) := by
      rw [resolveN_getter_step _ _ n name _ _ hfree hm hlook,
        if_neg (by rw [cacheLookup_of_cache_eq _ name (JSVal.deferred 0) _ rfl]; simp),
        cacheLookup_of_cache_eq _ name (JSVal.deferred 0) _ rfl]
    rw [h1, h2]
    refine ⟨rfl, rfl, by simp [dstateOf, List.lookup], ?_⟩
    simp [callCount, bump, freshState, List.lookup]

/-- Witness for C1 (amended) at a concrete getter name and value. -/
theorem c1_getter_caching_amended_witness :
    (resolveN (mergeGetters [("fullName", constGetter (JSVal.prim (Prim.strv "Elon")))])
        defMethodNames 6 "fullName" (freshState (Prim.numv 46) "User" none)).1
      = Except.ok (JSVal.prim (Prim.strv "Elon"))
    ∧ callCount
        (resolveN (mergeGetters [("fullName", constGetter (JSVal.prim (Prim.strv "Elon")))])
          defMethodNames 6 "fullName"
          (resolveN (mergeGetters [("fullName", constGetter (JSVal.prim (Prim.strv "Elon")))])
            defMethodNames 6 "fullName" (freshState (Prim.numv 46) "User" none)).2).2 "fullName"
      = 1 :=
  ⟨(c1_getter_caching_amended 5 "fullName" (JSVal.prim (Prim.strv "Elon"))
      (Prim.numv 46) "User" none (by decide) (by decide) (by decide)).1.1,
   (c1_getter_caching_amended 5 "fullName" (JSVal.prim (Prim.strv "Elon"))
      (Prim.numv 46) "User" none (by decide) (by decide) (by decide)).1.2.2⟩

/-- C3 counterexample: a getter that throws synchronously is NOT cached as a
failure — the cache assignment on part_005 line 145 never executes when the
right-hand side throws, so a second access re-invokes the getter (it runs
twice, and the cache slot stays empty). -/
theorem c3_failure_caching_counterexample :
    (resolveN (mergeGetters [("foo", throwingGetter "boom")]) defMethodNames 6 "foo"
        (freshState (Prim.strv "k1") "User" none)).1 = Except.error "boom"
    ∧ callCount
        (resolveN (mergeGetters [("foo", throwingGetter "boom")]) defMethodNames 6 "foo"
          (resolveN (mergeGetters [("foo", throwingGetter "boom")]) defMethodNames 6 "foo"
            (freshState (Prim.strv "k1") "User" none)).2).2 "foo" = 2
    ∧ ¬(callCount
        (resolveN (mergeGetters [("foo", throwingGetter "boom")]) defMethodNames 6 "foo"
          (resolveN (mergeGetters [("foo", throwingGetter "boom")]) defMethodNames 6 "foo"
            (freshState (Prim.strv "k1") "User" none)).2).2 "foo" = 1) := by decide

/-- C3 (amended): a failure that lives in the getter's returned deferred
(settled as rejected) IS cached: repeated access returns the same rejected
deferred and never re-invokes the getter.  A synchronous throw, by contrast,
leaves the cache slot empty and the getter is re-invoked on every access. -/
theorem c3_failure_caching_amended (n : Nat) (name e : String)
    (idv : Prim) (et : String) (ldrs : Option (List (String × LoaderSpec)))
    (hfree : freeNameB name = true)
    (hm : defMethodNames.contains name = false) :
    ((resolveN (mergeGetters [(name, failingGetter e)]) defMethodNames (n + 1) name
        (freshState idv et ldrs)).1 = Except.ok (JSVal.deferred 0)
      ∧ (resolveN (mergeGetters [(name, failingGetter e)]) defMethodNames (n + 1) name
          (resolveN (mergeGetters [(name, failingGetter e)]) defMethodNames (n + 1) name
            (freshState idv et ldrs)).2).1 = Except.ok (JSVal.deferred 0)
      ∧ dstateOf
          (resolveN (mergeGetters [(name, failingGetter e)]) defMethodNames (n + 1) name
            (resolveN (mergeGetters [(name, failingGetter e)]) defMethodNames (n + 1) name
              (freshState idv et ldrs)).2).2 0 = some (DState.rejected e)
      ∧ callCount
          (resolveN (mergeGetters [(name, failingGetter e)]) defMethodNames (n + 1) name
            (resolveN (mergeGetters [(name, failingGetter e)]) defMethodNames (n + 1) name
              (freshState idv et ldrs)).2).2 name = 1)
    ∧ ((resolveN (mergeGetters [(name, throwingGetter e)]) defMethodNames (n + 1) name
          (freshState idv et ldrs)).1 = Except.error e
      ∧ (resolveN (mergeGetters [(name, throwingGetter e)]) defMethodNames (n + 1) name
          (resolveN (mergeGetters [(name, throwingGetter e)]) defMethodNames (n + 1) name
            (freshState idv et ldrs)).2).1 = Except.error e
      ∧ callCount
          (resolveN (mergeGetters [(name, throwingGetter e)]) defMethodNames (n + 1) name
            (resolveN (mergeGetters [(name, throwingGetter e)]) defMethodNames (n + 1) name
              (freshState idv et ldrs)).2).2 name = 2
      ∧ cacheLookup
          (resolveN (mergeGetters [(name, throwingGetter e)]) defMethodNames (n + 1) name
            (resolveN (mergeGetters [(name, throwingGetter e)]) defMethodNames (n + 1) name
              (freshState idv et ldrs)).2).2 name = JSVal.prim Prim.undef) := by
  constructor
  · have hlook := lookup_mergeGetters_head name (failingGetter e) []
    have h1 : resolveN (mergeGetters [(name, failingGetter e)]) defMethodNames (n + 1) name
        (freshState idv et ldrs)
        = (Except.ok (JSVal.deferred 0),
           { bump name (freshState idv et ldrs) with
             defs := [(0, DState.rejected e)], nextD := 1,
             cache := (name, JSVal.deferred 0)
               :: (bump name (freshState idv et ldrs)).cache }) := by
      rw [resolveN_getter_step _ _ n name _ _ hfree hm hlook,
        if_pos (cacheLookup_fresh name idv et ldrs)]
      rfl
    have h2 : resolveN (mergeGetters [(name, failingGetter e)]) defMethodNames (n + 1) name
        ({ bump name (freshState idv et ldrs) with
           defs := [(0, DState.rejected e)], nextD := 1,
           cache := (name, JSVal.deferred 0)
             :: (bump name (freshState idv et ldrs)).cache })
        = (Except.ok (JSVal.deferred 0),
           { bump name (freshState idv et ldrs) with
             defs := [(0, DState.rejected e)], nextD := 1,
             cache := (name, JSVal.deferred 0)
               :: (bump name (freshState idv et ldrs)).cache }) := by
      rw [resolveN_getter_step _ _ n name _ _ hfree hm hlook,
        if_neg (by rw [cacheLookup_of_cache_eq _ name (JSVal.deferred 0) _ rfl]; simp),
        cacheLookup_of_cache_eq _ name (JSVal.deferred 0) _ rfl]
    rw [h1, h2]
    refine ⟨rfl, rfl, by simp [dstateOf, List.lookup], ?_⟩
    simp [callCount, bump, freshState, List.lookup]
  · have hlook := lookup_mergeGetters_head name (throwingGetter e) []
    have h1 : resolveN (mergeGetters [(name, throwingGetter e)]) defMethodNames (n + 1) name
        (freshState idv et ldrs)
        = (Except.error e, bump name (freshState idv et ldrs)) := by
      rw [resolveN_getter_step _ _ n name _ _ hfree hm hlook,
        if_pos (cacheLookup_fresh name idv et ldrs)]
      rfl
    have hcb : cacheLookup (bump name (freshState idv et ldrs)) name
        = JSVal.prim Prim.undef := by
      simp [cacheLookup, bump, freshState, List.lookup]
    have h2 : resolveN (mergeGetters [(name, throwingGetter e)]) defMethodNames (n + 1) name
        (bump name (freshState idv et ldrs))
        = (Except.error e, bump name (bump name (freshState idv et ldrs))) := by
      rw [resolveN_getter_step _ _ n name _ _ hfree hm hlook, if_pos hcb]
      rfl
    rw [h1, h2]
    refine ⟨rfl, rfl, ?_, ?_⟩
    · rw [callCount_bump_self, callCount_bump_self, callCount_fresh]
    · simp [cacheLookup, bump, freshState, List.lookup]

/-- Witness for C3 (amended) at a concrete name and error. -/
theorem c3_failure_caching_amended_witness :
    (resolveN (mergeGetters [("fullName", failingGetter "nope")]) defMethodNames 6 "fullName"
        (freshState (Prim.numv 46) "User" none)).1 = Except.ok (JSVal.deferred 0)
    ∧ callCount
        (resolveN (mergeGetters [("fullName", failingGetter "nope")]) defMethodNames 6 "fullName"
          (resolveN (mergeGetters [("fullName", failingGetter "nope")]) defMethodNames 6 "fullName"
            (freshState (Prim.numv 46) "User" none)).2).2 "fullName" = 1 :=
  ⟨(c3_failure_caching_amended 5 "fullName" "nope" (Prim.numv 46) "User" none
      (by decide) (by decide)).1.1,
   (c3_failure_caching_amended 5 "fullName" "nope" (Prim.numv 46) "User" none
      (by decide) (by decide)).1.2.2.2⟩

lemma entityLoaderGetter_eq (res : Resolver) (s : HState)
    (ls : List (String × LoaderSpec)) (l : LoaderSpec)
    (h1 : s.loaders = some ls) (h2 : List.lookup s.entityType ls = some l) :
    entityLoaderGetter res s = (Except.ok (JSVal.loaderVal l), s) := by
  unfold entityLoaderGetter
  rw [h1]
  show (match List.lookup s.entityType ls with
        | none => (Except.error (msgNoLoaderFor s.entityType), s)
        | some l => (Except.ok (JSVal.loaderVal l), s))
      = (Except.ok (JSVal.loaderVal l), s)
  rw [h2]

lemma entityLoaderGetter_eq_noloaders (res : Resolver) (s : HState)
    (h1 : s.loaders = none) :
    entityLoaderGetter res s = (Except.error msgNoLoaders, s) := by
  unfold entityLoaderGetter
  rw [h1]

lemma entityLoaderGetter_eq_noentry (res : Resolver) (s : HState)
    (ls : List (String × LoaderSpec))
    (h1 : s.loaders = some ls) (h2 : List.lookup s.entityType ls = none) :
    entityLoaderGetter res s = (Except.error (msgNoLoaderFor s.entityType), s) := by
  unfold entityLoaderGetter
  rw [h1]
  show (match List.lookup s.entityType ls with
        | none => (Except.error (msgNoLoaderFor s.entityType), s)
        | some l => (Except.ok (JSVal.loaderVal l), s))
      = (Except.error (msgNoLoaderFor s.entityType), s)
  rw [h2]

/-- Uncached `entityLoader` access on a configured handle: invokes the default
getter once and caches the loader. -/
lemma el_access (n : Nat) (idv : Prim) (et : String)
    (ls : List (String × LoaderSpec)) (l : LoaderSpec)
    (ch : List (String × JSVal)) (ds : List (Nat × DState)) (nd : Nat)
    (cs : List (String × Nat)) (lc cc : List Prim)
    (hch : List.lookup "entityLoader" ch = none)
    (hl : List.lookup et ls = some l) :
    resolveN (mergeGetters []) defMethodNames (n + 1) "entityLoader"
        ⟨idv, et, some ls, ch, ds, nd, cs, lc, cc⟩
      = (Except.ok (JSVal.loaderVal l),
         ⟨idv, et, some ls, ("entityLoader", JSVal.loaderVal l) :: ch, ds, nd,
          ("entityLoader", (List.lookup "entityLoader" cs).getD 0 + 1) :: cs, lc, cc⟩) := by
  rw [resolveN_getter_step _ _ n _ _ entityLoaderGetter (by decide) (by decide) (by rfl),
    if_pos (by simp [cacheLookup, hch]),
    entityLoaderGetter_eq _ _ ls l rfl hl]
  rfl

/-- Uncached `entityLoader` access with no `context.loaders`: the default
getter throws its configuration error synchronously; nothing is cached. -/
lemma el_access_noloaders (n : Nat) (idv : Prim) (et : String)
    (ch : List (String × JSVal)) (ds : List (Nat × DState)) (nd : Nat)
    (cs : List (String × Nat)) (lc cc : List Prim)
    (hch : List.lookup "entityLoader" ch = none) :
    resolveN (mergeGetters []) defMethodNames (n + 1) "entityLoader"
        ⟨idv, et, none, ch, ds, nd, cs, lc, cc⟩
      = (Except.error msgNoLoaders,
         ⟨idv, et, none, ch, ds, nd,
          ("entityLoader", (List.lookup "entityLoader" cs).getD 0 + 1) :: cs, lc, cc⟩) := by
  rw [resolveN_getter_step _ _ n _ _ entityLoaderGetter (by decide) (by decide) (by rfl),
    if_pos (by simp [cacheLookup, hch])]
  rfl

/-- Uncached `entityLoader` access with no loader entry for the entity type:
the default getter throws its configuration error synchronously. -/
lemma el_access_noentry (n : Nat) (idv : Prim) (et : String)
    (ls : List (String × LoaderSpec))
    (ch : List (String × JSVal)) (ds : List (Nat × DState)) (nd : Nat)
    (cs : List (String × Nat)) (lc cc : List Prim)
    (hch : List.lookup "entityLoader" ch = none)
    (hl : List.lookup et ls = none) :
    resolveN (mergeGetters []) defMethodNames (n + 1) "entityLoader"
        ⟨idv, et, some ls, ch, ds, nd, cs, lc, cc⟩
      = (Except.error (msgNoLoaderFor et),
         ⟨idv, et, some ls, ch, ds, nd,
          ("entityLoader", (List.lookup "entityLoader" cs).getD 0 + 1) :: cs, lc, cc⟩) := by
  rw [resolveN_getter_step _ _ n _ _ entityLoaderGetter (by decide) (by decide) (by rfl),
    if_pos (by simp [cacheLookup, hch]),
    entityLoaderGetter_eq_noentry _ _ ls rfl hl]
  rfl

/-- Access of a property whose getter result is already cached (and not
`undefined`): the cached value is returned and nothing changes. -/
lemma getter_access_cached (n : Nat) (p : String) (g : GetterFn) (s : HState) (v : JSVal)
    (hfree : freeNameB p = true) (hm : defMethodNames.contains p = false)
    (hg : List.lookup p (mergeGetters []) = some g)
    (hch : cacheLookup s p = v) (hv : v ≠ JSVal.prim Prim.undef) :
    resolveN (mergeGetters []) defMethodNames (n + 1) p s = (Except.ok v, s) := by
  rw [resolveN_getter_step _ _ n _ _ g hfree hm hg,
    if_neg (by rw [hch]; exact hv), hch]

lemma dataValuesGetter_eq (res : Resolver) (s sB : HState) (l : LoaderSpec)
    (h1 : res "entityLoader" s = (Except.ok (JSVal.loaderVal l), sB))
    (h2 : res "entityLoader" sB = (Except.ok (JSVal.loaderVal l), sB))
    (hload : l.hasLoad = true) :
    dataValuesGetter res s
      = mkDeferred (dvSettle l sB.entityType sB.id)
          { sB with loadCalls := sB.loadCalls ++ [sB.id] } := by
  unfold dataValuesGetter
  rw [h1]
  simp only [probeLoad, hload, if_true, h2]
  cases hres : l.loadResult with
  | error e => simp [dvSettle, hres]
  | ok o =>
    cases o with
    | none => simp [dvSettle, hres]
    | some rec => simp [dvSettle, hres]

lemma dataValuesGetter_eq_fail (res : Resolver) (s s1 : HState) (e : String)
    (h1 : res "entityLoader" s = (Except.error e, s1)) :
    dataValuesGetter res s = mkDeferred (DState.rejected e) s1 := by
  unfold dataValuesGetter
  rw [h1]

lemma dataValuesGetter_eq_noload (res : Resolver) (s sB : HState) (l : LoaderSpec)
    (h1 : res "entityLoader" s = (Except.ok (JSVal.loaderVal l), sB))
    (hload : l.hasLoad = false) :
    dataValuesGetter res s = mkDeferred (DState.rejected msgLoadNotFn) sB := by
  unfold dataValuesGetter
  rw [h1]
  simp [probeLoad, hload]

/-- First (uncached) `dataValues` access on a configured fresh-cache handle:
the default getter runs once, caches `entityLoader` on the way, calls
`load(id)` exactly once, and caches the freshly allocated deferred `0`. -/
lemma dv_access (n : Nat) (idv : Prim) (et : String)
    (ls : List (String × LoaderSpec)) (l : LoaderSpec)
    (cs : List (String × Nat)) (lc cc : List Prim)
    (hl : List.lookup et ls = some l) (hload : l.hasLoad = true) :
    resolveN (mergeGetters []) defMethodNames (n + 2) "dataValues"
        ⟨idv, et, some ls, [], [], 0, cs, lc, cc⟩
      = (Except.ok (JSVal.deferred 0),
         ⟨idv, et, some ls,
          [("dataValues", JSVal.deferred 0), ("entityLoader", JSVal.loaderVal l)],
          [(0, dvSettle l et idv)], 1,
          ("entityLoader", (List.lookup "entityLoader"
              (("dataValues", (List.lookup "dataValues" cs).getD 0 + 1) :: cs)).getD 0 + 1)
            :: ("dataValues", (List.lookup "dataValues" cs).getD 0 + 1) :: cs,
          lc ++ [idv], cc⟩) := by
  rw [show n + 2 = n + 1 + 1 from rfl,
    resolveN_getter_step _ _ (n + 1) _ _ dataValuesGetter (by decide) (by decide) (by rfl),
    if_pos (by simp [cacheLookup, List.lookup])]
  have hb : bump "dataValues" ⟨idv, et, some ls, [], [], 0, cs, lc, cc⟩
      = ⟨idv, et, some ls, [], [], 0,
         ("dataValues", (List.lookup "dataValues" cs).getD 0 + 1) :: cs, lc, cc⟩ := rfl
  rw [hb,
    dataValuesGetter_eq (resolveN (mergeGetters []) defMethodNames (n + 1)) _
      ⟨idv, et, some ls, [("entityLoader", JSVal.loaderVal l)], [], 0,
       ("entityLoader", (List.lookup "entityLoader"
           (("dataValues", (List.lookup "dataValues" cs).getD 0 + 1) :: cs)).getD 0 + 1)
         :: ("dataValues", (List.lookup "dataValues" cs).getD 0 + 1) :: cs, lc, cc⟩ l
      (el_access n idv et ls l [] [] 0 _ lc cc rfl hl)
      (getter_access_cached n "entityLoader" entityLoaderGetter _ (JSVal.loaderVal l)
        (by decide) (by decide) (by rfl) (by simp [cacheLookup, List.lookup]) (by simp))
      hload]
  simp [mkDeferred]

/-- First `dataValues` access when `context.loaders` is absent: the
`entityLoader` getter throws synchronously inside the async body, which
rejects the returned deferred; `entityLoader` is NOT cached, `load` never
runs, and the rejected deferred is cached under `dataValues`. -/
lemma dv_access_noloaders (n : Nat) (idv : Prim) (et : String)
    (cs : List (String × Nat)) (lc cc : List Prim) :
    resolveN (mergeGetters []) defMethodNames (n + 2) "dataValues"
        ⟨idv, et, none, [], [], 0, cs, lc, cc⟩
      = (Except.ok (JSVal.deferred 0),
         ⟨idv, et, none,
          [("dataValues", JSVal.deferred 0)],
          [(0, DState.rejected msgNoLoaders)], 1,
          ("entityLoader", (List.lookup "entityLoader"
              (("dataValues", (List.lookup "dataValues" cs).getD 0 + 1) :: cs)).getD 0 + 1)
            :: ("dataValues", (List.lookup "dataValues" cs).getD 0 + 1) :: cs,
          lc, cc⟩) := by
  rw [show n + 2 = n + 1 + 1 from rfl,
    resolveN_getter_step _ _ (n + 1) _ _ dataValuesGetter (by decide) (by decide) (by rfl),
    if_pos (by simp [cacheLookup, List.lookup])]
  have hb : bump "dataValues" ⟨idv, et, none, [], [], 0, cs, lc, cc⟩
      = ⟨idv, et, none, [], [], 0,
         ("dataValues", (List.lookup "dataValues" cs).getD 0 + 1) :: cs, lc, cc⟩ := rfl
  rw [hb,
    dataValuesGetter_eq_fail (resolveN (mergeGetters []) defMethodNames (n + 1)) _ _
      msgNoLoaders (el_access_noloaders n idv et [] [] 0 _ lc cc rfl)]
  simp [mkDeferred]

/-- First `dataValues` access when no loader entry exists for the entity
type: as above, with the per-type configuration error. -/
lemma dv_access_noentry (n : Nat) (idv : Prim) (et : String)
    (ls : List (String × LoaderSpec))
    (cs : List (String × Nat)) (lc cc : List Prim)
    (hl : List.lookup et ls = none) :
    resolveN (mergeGetters []) defMethodNames (n + 2) "dataValues"
        ⟨idv, et, some ls, [], [], 0, cs, lc, cc⟩
      = (Except.ok (JSVal.deferred 0),
         ⟨idv, et, some ls,
          [("dataValues", JSVal.deferred 0)],
          [(0, DState.rejected (msgNoLoaderFor et))], 1,
          ("entityLoader", (List.lookup "entityLoader"
              (("dataValues", (List.lookup "dataValues" cs).getD 0 + 1) :: cs)).getD 0 + 1)
            :: ("dataValues", (List.lookup "dataValues" cs).getD 0 + 1) :: cs,
          lc, cc⟩) := by
  rw [show n + 2 = n + 1 + 1 from rfl,
    resolveN_getter_step _ _ (n + 1) _ _ dataValuesGetter (by decide) (by decide) (by rfl),
    if_pos (by simp [cacheLookup, List.lookup])]
  have hb : bump "dataValues" ⟨idv, et, some ls, [], [], 0, cs, lc, cc⟩
      = ⟨idv, et, some ls, [], [], 0,
         ("dataValues", (List.lookup "dataValues" cs).getD 0 + 1) :: cs, lc, cc⟩ := rfl
  rw [hb,
    dataValuesGetter_eq_fail (resolveN (mergeGetters []) defMethodNames (n + 1)) _ _
      (msgNoLoaderFor et) (el_access_noentry n idv et ls [] [] 0 _ lc cc rfl hl)]
  simp [mkDeferred]

/-- First `dataValues` access when the loader's `load` is not a function:
the configuration error rejects the deferred; `entityLoader` is cached. -/
lemma dv_access_noload (n : Nat) (idv : Prim) (et : String)
    (ls : List (String × LoaderSpec)) (l : LoaderSpec)
    (cs : List (String × Nat)) (lc cc : List Prim)
    (hl : List.lookup et ls = some l) (hload : l.hasLoad = false) :
    resolveN (mergeGetters []) defMethodNames (n + 2) "dataValues"
        ⟨idv, et, some ls, [], [], 0, cs, lc, cc⟩
      = (Except.ok (JSVal.deferred 0),
         ⟨idv, et, some ls,
          [("dataValues", JSVal.deferred 0), ("entityLoader", JSVal.loaderVal l)],
          [(0, DState.rejected msgLoadNotFn)], 1,
          ("entityLoader", (List.lookup "entityLoader"
              (("dataValues", (List.lookup "dataValues" cs).getD 0 + 1) :: cs)).getD 0 + 1)
            :: ("dataValues", (List.lookup "dataValues" cs).getD 0 + 1) :: cs,
          lc, cc⟩) := by
  rw [show n + 2 = n + 1 + 1 from rfl,
    resolveN_getter_step _ _ (n + 1) _ _ dataValuesGetter (by decide) (by decide) (by rfl),
    if_pos (by simp [cacheLookup, List.lookup])]
  have hb : bump "dataValues" ⟨idv, et, some ls, [], [], 0, cs, lc, cc⟩
      = ⟨idv, et, some ls, [], [], 0,
         ("dataValues", (List.lookup "dataValues" cs).getD 0 + 1) :: cs, lc, cc⟩ := rfl
  rw [hb,
    dataValuesGetter_eq_noload (resolveN (mergeGetters []) defMethodNames (n + 1)) _ _ l
      (el_access n idv et ls l [] [] 0 _ lc cc rfl hl) hload]
  simp [mkDeferred]

/-- C5: on a handle whose loader exposes a callable `load`, the built-in
`dataValues` getter calls `load` with the handle's id exactly once; the
returned deferred rejects with exactly `notFoundMsg entityType id`
(`Entity <entityType> with id "<id>" does not exist.`) when the fetch
resolves empty/falsy, rejects with the fetch's error when it rejects, and
resolves to the fetched record otherwise (all three cases are `dvSettle`);
a second access returns the same cached deferred without calling `load`
again. -/
theorem c5_dataValues (n : Nat) (idv : Prim) (et : String)
    (ls : List (String × LoaderSpec)) (l : LoaderSpec)
    (hl : List.lookup et ls = some l) (hload : l.hasLoad = true) :
    (resolveN (mergeGetters []) defMethodNames (n + 2) "dataValues"
        (freshState idv et (some ls))).1 = Except.ok (JSVal.deferred 0)
    ∧ dstateOf (resolveN (mergeGetters []) defMethodNames (n + 2) "dataValues"
        (freshState idv et (some ls))).2 0 = some (dvSettle l et idv)
    ∧ (resolveN (mergeGetters []) defMethodNames (n + 2) "dataValues"
        (freshState idv et (some ls))).2.loadCalls = [idv]
    ∧ callCount (resolveN (mergeGetters []) defMethodNames (n + 2) "dataValues"
        (freshState idv et (some ls))).2 "dataValues" = 1
    ∧ resolveN (mergeGetters []) defMethodNames (n + 2) "dataValues"
        (resolveN (mergeGetters []) defMethodNames (n + 2) "dataValues"
          (freshState idv et (some ls))).2
      = (Except.ok (JSVal.deferred 0),
         (resolveN (mergeGetters []) defMethodNames (n + 2) "dataValues"
           (freshState idv et (some ls))).2) := by
  have hfresh : freshState idv et (some ls) = ⟨idv, et, some ls, [], [], 0, [], [], []⟩ := rfl
  have hdv := dv_access n idv et ls l [] [] [] hl hload
  rw [hfresh, hdv]
  refine ⟨rfl, by simp [dstateOf, List.lookup], rfl, by simp [callCount, List.lookup], ?_⟩
  rw [show n + 2 = n + 1 + 1 from rfl]
  exact getter_access_cached (n + 1) "dataValues" dataValuesGetter _ (JSVal.deferred 0)
    (by decide) (by decide) (by rfl) (by simp [cacheLookup, List.lookup]) (by simp)

/-- Witness for C5: the Elon record resolves; an empty fetch rejects with the
exact NotFound message. -/
theorem c5_dataValues_witness :
    dstateOf (resolveN (mergeGetters []) defMethodNames 6 "dataValues"
        (freshState (Prim.numv 46) "User" (some [("User", elonLoader)]))).2 0
      = some (DState.resolved (JSVal.record [("name", Prim.strv "Elon"),
                                             ("email", Prim.strv "elon@spacex.com")]))
    ∧ dstateOf (resolveN (mergeGetters []) defMethodNames 6 "dataValues"
        (freshState (Prim.numv 46) "User" (some [("User", emptyLoader)]))).2 0
      = some (DState.rejected "Entity User with id \"46\" does not exist.")
    ∧ (resolveN (mergeGetters []) defMethodNames 6 "dataValues"
        (freshState (Prim.numv 46) "User" (some [("User", elonLoader)]))).2.loadCalls
      = [Prim.numv 46] := by
  refine ⟨?_, ?_, (c5_dataValues 4 (Prim.numv 46) "User" [("User", elonLoader)]
    elonLoader (by decide) (by decide)).2.2.1⟩
  · rw [(c5_dataValues 4 (Prim.numv 46) "User" [("User", elonLoader)] elonLoader
      (by decide) (by decide)).2.1]
    decide
  · rw [(c5_dataValues 4 (Prim.numv 46) "User" [("User", emptyLoader)] emptyLoader
      (by decide) (by decide)).2.1]
    decide

/-- C6: on every fresh handle (any loader configuration whatsoever), the
built-in `exists` getter returns a deferred (it never throws), and that
deferred resolves — never rejects — to `true` exactly when `dataValues`
succeeds and to `false` on any `dataValues` failure, including the
synchronous throws of `entityLoader` resolution. -/
theorem c6_exists (n : Nat) (idv : Prim) (et : String)
    (ldrs : Option (List (String × LoaderSpec))) :
    (resolveN (mergeGetters []) defMethodNames (n + 3) "exists"
        (freshState idv et ldrs)).1 = Except.ok (JSVal.deferred 1)
    ∧ dstateOf (resolveN (mergeGetters []) defMethodNames (n + 3) "exists"
        (freshState idv et ldrs)).2 1
      = some (DState.resolved (JSVal.prim (Prim.boolv (dvSucceeds ldrs et)))) := by
  cases ldrs with
  | none =>
    rw [show n + 3 = n + 2 + 1 from rfl,
      resolveN_getter_step _ _ (n + 2) _ _ existsGetter (by decide) (by decide) (by rfl),
      if_pos (by simp [cacheLookup, freshState, List.lookup]),
      show bump "exists" (freshState idv et none)
        = ⟨idv, et, none, [], [], 0, [("exists", 1)], [], []⟩ from rfl]
    unfold existsGetter
    rw [dv_access_noloaders n idv et [("exists", 1)] [] []]
    simp [awaitOf, dstateOf, List.lookup, mkDeferred, dvSucceeds]
  | some ls =>
    cases hq : List.lookup et ls with
    | none =>
      rw [show n + 3 = n + 2 + 1 from rfl,
        resolveN_getter_step _ _ (n + 2) _ _ existsGetter (by decide) (by decide) (by rfl),
        if_pos (by simp [cacheLookup, freshState, List.lookup]),
        show bump "exists" (freshState idv et (some ls))
          = ⟨idv, et, some ls, [], [], 0, [("exists", 1)], [], []⟩ from rfl]
      unfold existsGetter
      rw [dv_access_noentry n idv et ls [("exists", 1)] [] [] hq]
      simp [awaitOf, dstateOf, List.lookup, mkDeferred, dvSucceeds, hq]
    | some l =>
      cases hload : l.hasLoad with
      | false =>
        rw [show n + 3 = n + 2 + 1 from rfl,
          resolveN_getter_step _ _ (n + 2) _ _ existsGetter (by decide) (by decide) (by rfl),
          if_pos (by simp [cacheLookup, freshState, List.lookup]),
          show bump "exists" (freshState idv et (some ls))
            = ⟨idv, et, some ls, [], [], 0, [("exists", 1)], [], []⟩ from rfl]
        unfold existsGetter
        rw [dv_access_noload n idv et ls l [("exists", 1)] [] [] hq hload]
        simp [awaitOf, dstateOf, List.lookup, mkDeferred, dvSucceeds, hq, hload]
      | true =>
        rw [show n + 3 = n + 2 + 1 from rfl,
          resolveN_getter_step _ _ (n + 2) _ _ existsGetter (by decide) (by decide) (by rfl),
          if_pos (by simp [cacheLookup, freshState, List.lookup]),
          show bump "exists" (freshState idv et (some ls))
            = ⟨idv, et, some ls, [], [], 0, [("exists", 1)], [], []⟩ from rfl]
        unfold existsGetter
        rw [dv_access n idv et ls l [("exists", 1)] [] [] hq hload]
        cases hres : l.loadResult with
        | error e =>
          simp [awaitOf, dstateOf, List.lookup, mkDeferred, dvSucceeds, dvSettle,
            hq, hload, hres]
        | ok o =>
          cases o with
          | none =>
            simp [awaitOf, dstateOf, List.lookup, mkDeferred, dvSucceeds, dvSettle,
              hq, hload, hres]
          | some rec =>
            simp [awaitOf, dstateOf, List.lookup, mkDeferred, dvSucceeds, dvSettle,
              hq, hload, hres]

/-- Witness for C6 (no hypotheses beyond binders): `exists` resolves `true`
on the Elon loader and `false` with no loaders configured. -/
theorem c6_exists_witness :
    dstateOf (resolveN (mergeGetters []) defMethodNames 6 "exists"
        (freshState (Prim.numv 46) "User" (some [("User", elonLoader)]))).2 1
      = some (DState.resolved (JSVal.prim (Prim.boolv true)))
    ∧ dstateOf (resolveN (mergeGetters []) defMethodNames 6 "exists"
        (freshState (Prim.numv 46) "User" none)).2 1
      = some (DState.resolved (JSVal.prim (Prim.boolv false))) := by
  constructor
  · rw [(c6_exists 3 (Prim.numv 46) "User" (some [("User", elonLoader)])).2]
    decide
  · rw [(c6_exists 3 (Prim.numv 46) "User" none).2]
    decide

/-- Fallback access (`no declaration matches p`) given that the `dataValues`
access on the same state yields deferred `0` with post-state `sD`: a FRESH
deferred is allocated, settling to the projection of deferred `0` at `p`. -/
lemma fallback_access_of_dv (n : Nat) (p : String) (s sD : HState)
    (hfree : freeNameB p = true) (hm : defMethodNames.contains p = false)
    (hg : List.lookup p (mergeGetters []) = none)
    (hdv : resolveN (mergeGetters []) defMethodNames (n + 1) "dataValues" s
      = (Except.ok (JSVal.deferred 0), sD)) :
    resolveN (mergeGetters []) defMethodNames (n + 2) p s
      = (Except.ok (JSVal.deferred sD.nextD),
         { sD with defs := (sD.nextD, thenProject sD 0 p) :: sD.defs,
                   nextD := sD.nextD + 1 }) := by
  rw [show n + 2 = n + 1 + 1 from rfl,
    resolveN_fallback_step _ _ (n + 1) p _ hfree hm hg, hdv]
  rfl

/-- Fallback access when the `dataValues` deferred is already cached: again a
FRESH deferred is allocated (fallback reads are never memoized), while the
cached `dataValues` deferred is reused. -/
lemma fallback_access_cached (n : Nat) (p : String) (s : HState) (d : Nat)
    (hfree : freeNameB p = true) (hm : defMethodNames.contains p = false)
    (hg : List.lookup p (mergeGetters []) = none)
    (hch : cacheLookup s "dataValues" = JSVal.deferred d) :
    resolveN (mergeGetters []) defMethodNames (n + 2) p s
      = (Except.ok (JSVal.deferred s.nextD),
         { s with defs := (s.nextD, thenProject s d p) :: s.defs,
                  nextD := s.nextD + 1 }) := by
  rw [show n + 2 = n + 1 + 1 from rfl,
    resolveN_fallback_step _ _ (n + 1) p _ hfree hm hg,
    getter_access_cached n "dataValues" dataValuesGetter s (JSVal.deferred d)
      (by decide) (by decide) (by rfl) hch (by simp)]
  rfl

/-- C4: accessing a property name that matches no own field, no prototype
field, no method and no getter on a configured fresh handle returns a
deferred that settles to the built-in `dataValues` result projected at that
field: it resolves to the record's field (or `undefined` if the record lacks
it), and it rejects with exactly the error `dataValues` rejects with (the
fetch's own error, or the NotFound message on an empty fetch). -/
theorem c4_fallback_projection (n : Nat) (idv : Prim) (et : String)
    (ls : List (String × LoaderSpec)) (l : LoaderSpec) (p : String)
    (hfree : freeNameB p = true) (hm : defMethodNames.contains p = false)
    (hg : List.lookup p (mergeGetters []) = none)
    (hl : List.lookup et ls = some l) (hload : l.hasLoad = true) :
    (resolveN (mergeGetters []) defMethodNames (n + 3) p
        (freshState idv et (some ls))).1 = Except.ok (JSVal.deferred 1)
    ∧ dstateOf (resolveN (mergeGetters []) defMethodNames (n + 3) p
        (freshState idv et (some ls))).2 1
      = some (match l.loadResult with
          | .ok (some rec) =>
            DState.resolved (JSVal.prim ((List.lookup p rec).getD Prim.undef))
          | .ok none => DState.rejected (notFoundMsg et idv)
          | .error e => DState.rejected e) := by
  have hfresh : freshState idv et (some ls) = ⟨idv, et, some ls, [], [], 0, [], [], []⟩ := rfl
  have hdv := dv_access n idv et ls l [] [] [] hl hload
  have hacc := fallback_access_of_dv (n + 1) p
    ⟨idv, et, some ls, [], [], 0, [], [], []⟩ _ hfree hm hg
    (by rw [show n + 1 + 1 = n + 2 from rfl]; exact hdv)
  rw [hfresh, show n + 3 = n + 1 + 2 from rfl, hacc]
  refine ⟨rfl, ?_⟩
  cases hres : l.loadResult with
  | error e => simp [dstateOf, List.lookup, thenProject, dvSettle, hres]
  | ok o =>
    cases o with
    | none => simp [dstateOf, List.lookup, thenProject, dvSettle, hres]
    | some rec => simp [dstateOf, List.lookup, thenProject, dvSettle, hres]

/-- Witness for C4: the spec's example — undeclared `name` on a handle whose
`dataValues` resolves to the Elon record resolves to `'Elon'`; and with a
rejecting fetch the fallback rejects with that same error. -/
theorem c4_fallback_projection_witness :
    dstateOf (resolveN (mergeGetters []) defMethodNames 6 "name"
        (freshState (Prim.numv 46) "User" (some [("User", elonLoader)]))).2 1
      = some (DState.resolved (JSVal.prim (Prim.strv "Elon")))
    ∧ dstateOf (resolveN (mergeGetters []) defMethodNames 6 "name"
        (freshState (Prim.numv 46) "User"
          (some [("User", { hasLoad := true, hasClear := true,
                            loadResult := Except.error "db down" })]))).2 1
      = some (DState.rejected "db down") := by
  constructor
  · rw [(c4_fallback_projection 3 (Prim.numv 46) "User" [("User", elonLoader)]
      elonLoader "name" (by decide) (by decide) (by rfl) (by decide) (by decide)).2]
    decide
  · rw [(c4_fallback_projection 3 (Prim.numv 46) "User"
      [("User", { hasLoad := true, hasClear := true, loadResult := Except.error "db down" })]
      { hasLoad := true, hasClear := true, loadResult := Except.error "db down" }
      "name" (by decide) (by decide) (by rfl) (by decide) (by decide)).2]

/-- Two consecutive fallback accesses of `p`: each allocates a fresh deferred
(`sD.nextD`, then `sD.nextD + 1`), while the cached `dataValues` deferred `0`
is reused by the second one. -/
lemma fallback_twice (n : Nat) (p : String) (s sD : HState)
    (hfree : freeNameB p = true) (hm : defMethodNames.contains p = false)
    (hg : List.lookup p (mergeGetters []) = none)
    (hdv : resolveN (mergeGetters []) defMethodNames (n + 1) "dataValues" s
      = (Except.ok (JSVal.deferred 0), sD))
    (hch : cacheLookup sD "dataValues" = JSVal.deferred 0) :
    resolveN (mergeGetters []) defMethodNames (n + 2) p s
      = (Except.ok (JSVal.deferred sD.nextD), fbState1 sD p)
    ∧ resolveN (mergeGetters []) defMethodNames (n + 2) p (fbState1 sD p)
      = (Except.ok (JSVal.deferred (sD.nextD + 1)), fbState2 sD p) := by
  refine ⟨fallback_access_of_dv n p s sD hfree hm hg hdv, ?_⟩
  exact fallback_access_cached n p (fbState1 sD p) 0 hfree hm hg hch

/-- C9: fallback (undeclared-property) reads are not memoized — on any fresh
handle, two successive accesses of an undeclared `p` return two DISTINCT
freshly allocated deferreds (`1`, then `2`), while the underlying
`dataValues` getter has executed exactly once (its cached deferred `0` is
shared by both fallback reads). -/
theorem c9_fallback_fresh_deferred (n : Nat) (idv : Prim) (et : String)
    (ldrs : Option (List (String × LoaderSpec))) (p : String)
    (hfree : freeNameB p = true) (hm : defMethodNames.contains p = false)
    (hg : List.lookup p (mergeGetters []) = none) :
    (resolveN (mergeGetters []) defMethodNames (n + 3) p (freshState idv et ldrs)).1
      = Except.ok (JSVal.deferred 1)
    ∧ (resolveN (mergeGetters []) defMethodNames (n + 3) p
        (resolveN (mergeGetters []) defMethodNames (n + 3) p (freshState idv et ldrs)).2).1
      = Except.ok (JSVal.deferred 2)
    ∧ JSVal.deferred 1 ≠ JSVal.deferred 2
    ∧ callCount (resolveN (mergeGetters []) defMethodNames (n + 3) p
        (resolveN (mergeGetters []) defMethodNames (n + 3) p (freshState idv et ldrs)).2).2
        "dataValues" = 1 := by
  rw [show n + 3 = n + 1 + 2 from rfl]
  cases ldrs with
  | none =>
    rw [show freshState idv et none = ⟨idv, et, none, [], [], 0, [], [], []⟩ from rfl]
    have hdv := dv_access_noloaders n idv et [] [] []
    obtain ⟨h1, h2⟩ := fallback_twice (n + 1) p _ _ hfree hm hg
      (by rw [show n + 1 + 1 = n + 2 from rfl]; exact hdv)
      (by simp [cacheLookup, List.lookup])
    rw [h1]
    exact ⟨rfl, congrArg Prod.fst h2, by decide,
      (congrArg (fun r => callCount r.2 "dataValues") h2).trans
        (by simp [callCount, fbState2, List.lookup])⟩
  | some ls =>
    cases hq : List.lookup et ls with
    | none =>
      rw [show freshState idv et (some ls) = ⟨idv, et, some ls, [], [], 0, [], [], []⟩ from rfl]
      have hdv := dv_access_noentry n idv et ls [] [] [] hq
      obtain ⟨h1, h2⟩ := fallback_twice (n + 1) p _ _ hfree hm hg
        (by rw [show n + 1 + 1 = n + 2 from rfl]; exact hdv)
        (by simp [cacheLookup, List.lookup])
      rw [h1]
      exact ⟨rfl, congrArg Prod.fst h2, by decide,
        (congrArg (fun r => callCount r.2 "dataValues") h2).trans
          (by simp [callCount, fbState2, List.lookup])⟩
    | some l =>
      cases hload : l.hasLoad with
      | false =>
        rw [show freshState idv et (some ls) = ⟨idv, et, some ls, [], [], 0, [], [], []⟩ from rfl]
        have hdv := dv_access_noload n idv et ls l [] [] [] hq hload
        obtain ⟨h1, h2⟩ := fallback_twice (n + 1) p _ _ hfree hm hg
          (by rw [show n + 1 + 1 = n + 2 from rfl]; exact hdv)
          (by simp [cacheLookup, List.lookup])
        rw [h1]
        exact ⟨rfl, congrArg Prod.fst h2, by decide,
          (congrArg (fun r => callCount r.2 "dataValues") h2).trans
            (by simp [callCount, fbState2, List.lookup])⟩
      | true =>
        rw [show freshState idv et (some ls) = ⟨idv, et, some ls, [], [], 0, [], [], []⟩ from rfl]
        have hdv := dv_access n idv et ls l [] [] [] hq hload
        obtain ⟨h1, h2⟩ := fallback_twice (n + 1) p _ _ hfree hm hg
          (by rw [show n + 1 + 1 = n + 2 from rfl]; exact hdv)
          (by simp [cacheLookup, List.lookup])
        rw [h1]
        exact ⟨rfl, congrArg Prod.fst h2, by decide,
          (congrArg (fun r => callCount r.2 "dataValues") h2).trans
            (by simp [callCount, fbState2, List.lookup])⟩

/-- Witness for C9 at the spec's example handle. -/
theorem c9_fallback_fresh_deferred_witness :
    (resolveN (mergeGetters []) defMethodNames 6 "name"
        (freshState (Prim.numv 46) "User" (some [("User", elonLoader)]))).1
      = Except.ok (JSVal.deferred 1)
    ∧ (resolveN (mergeGetters []) defMethodNames 6 "name"
        (resolveN (mergeGetters []) defMethodNames 6 "name"
          (freshState (Prim.numv 46) "User" (some [("User", elonLoader)]))).2).1
      = Except.ok (JSVal.deferred 2) :=
  ⟨(c9_fallback_fresh_deferred 3 (Prim.numv 46) "User" (some [("User", elonLoader)])
      "name" (by decide) (by decide) (by rfl)).1,
   (c9_fallback_fresh_deferred 3 (Prim.numv 46) "User" (some [("User", elonLoader)])
      "name" (by decide) (by decide) (by rfl)).2.1⟩

/-- Uncached `dataValues` access when `entityLoader` is already cached: the
getter runs (fresh deferred at the current `nextD`), `load(id)` is called,
and the cached loader is reused without invoking `entityLoader` again. -/
lemma dv_access_cachedEL (n : Nat) (idv : Prim) (et : String)
    (ldrs : Option (List (String × LoaderSpec))) (l : LoaderSpec)
    (ch : List (String × JSVal)) (ds : List (Nat × DState)) (nd : Nat)
    (cs : List (String × Nat)) (lc cc : List Prim)
    (hchdv : List.lookup "dataValues" ch = none)
    (hchel : List.lookup "entityLoader" ch = some (JSVal.loaderVal l))
    (hload : l.hasLoad = true) :
    resolveN (mergeGetters []) defMethodNames (n + 2) "dataValues"
        ⟨idv, et, ldrs, ch, ds, nd, cs, lc, cc⟩
      = (Except.ok (JSVal.deferred nd),
         ⟨idv, et, ldrs, ("dataValues", JSVal.deferred nd) :: ch,
          (nd, dvSettle l et idv) :: ds, nd + 1,
          ("dataValues", (List.lookup "dataValues" cs).getD 0 + 1) :: cs,
          lc ++ [idv], cc⟩) := by
  rw [show n + 2 = n + 1 + 1 from rfl,
    resolveN_getter_step _ _ (n + 1) _ _ dataValuesGetter (by decide) (by decide) (by rfl),
    if_pos (by simp [cacheLookup, hchdv])]
  have hb : bump "dataValues" ⟨idv, et, ldrs, ch, ds, nd, cs, lc, cc⟩
      = ⟨idv, et, ldrs, ch, ds, nd,
         ("dataValues", (List.lookup "dataValues" cs).getD 0 + 1) :: cs, lc, cc⟩ := rfl
  rw [hb,
    dataValuesGetter_eq (resolveN (mergeGetters []) defMethodNames (n + 1)) _ _ l
      (getter_access_cached n "entityLoader" entityLoaderGetter _ (JSVal.loaderVal l)
        (by decide) (by decide) (by rfl) (by simp [cacheLookup, hchel]) (by simp))
      (getter_access_cached n "entityLoader" entityLoaderGetter _ (JSVal.loaderVal l)
        (by decide) (by decide) (by rfl) (by simp [cacheLookup, hchel]) (by simp))
      hload]
  simp [mkDeferred]

/-- Evaluation of the default `clearCache` body when `entityLoader` is
already cached (first read returns it unchanged), `clear` is callable, and
re-reading `entityLoader` after the cache reset gives post-state `sE`:
the body returns undefined and appends exactly one `clear(id)` call. -/
lemma clearCacheMethod_eq (res : Resolver) (s : HState) (l : LoaderSpec) (sE : HState)
    (h1 : res "entityLoader" s = (Except.ok (JSVal.loaderVal l), s))
    (hclear : l.hasClear = true)
    (h2 : res "entityLoader" { s with cache := [] }
      = (Except.ok (JSVal.loaderVal l), sE)) :
    clearCacheMethod res s
      = (Except.ok (JSVal.prim Prim.undef),
         { sE with clearCalls := sE.clearCalls ++ [sE.id] }) := by
  unfold clearCacheMethod
  rw [h1]
  simp only [probeClear, hclear, if_true, h2]

/-- C2 counterexample: `clearCache()` does NOT leave the cache fully empty,
and the previously cached `entityLoader` is NOT re-invoked by its next read:
the body's `this.entityLoader.clear(this.id)` re-reads `entityLoader`
through the just-emptied cache, re-invoking its getter (count 2) and
re-populating the cache before `clear` runs; the next `entityLoader` read is
then a cache hit (count stays 2). -/
theorem c2_clearCache_counterexample :
    (callMethod (mergeGetters []) defMethodNames 6 clearCacheMethod
        (resolveN (mergeGetters []) defMethodNames 6 "entityLoader"
          (freshState (Prim.numv 46) "User" (some [("User", elonLoader)]))).2).2.cache
      = [("entityLoader", JSVal.loaderVal elonLoader)]
    ∧ ¬((callMethod (mergeGetters []) defMethodNames 6 clearCacheMethod
        (resolveN (mergeGetters []) defMethodNames 6 "entityLoader"
          (freshState (Prim.numv 46) "User" (some [("User", elonLoader)]))).2).2.cache
      = [])
    ∧ callCount (callMethod (mergeGetters []) defMethodNames 6 clearCacheMethod
        (resolveN (mergeGetters []) defMethodNames 6 "entityLoader"
          (freshState (Prim.numv 46) "User" (some [("User", elonLoader)]))).2).2
        "entityLoader" = 2
    ∧ callCount (resolveN (mergeGetters []) defMethodNames 6 "entityLoader"
        (callMethod (mergeGetters []) defMethodNames 6 clearCacheMethod
          (resolveN (mergeGetters []) defMethodNames 6 "entityLoader"
            (freshState (Prim.numv 46) "User" (some [("User", elonLoader)]))).2).2).2
        "entityLoader" = 2 := by decide

/-- C2 (amended): after a `dataValues` access, `clearCache()` returns
undefined, calls the loader's `clear` exactly once with the handle's id, and
leaves the cache holding exactly the re-populated `entityLoader` entry (the
reset to empty is immediately followed by the body's own `entityLoader`
re-read).  Afterwards the next read of the previously cached `dataValues`
re-invokes its getter (a fresh deferred, invocation count 2), while the next
read of `entityLoader` is a cache hit that re-invokes nothing. -/
theorem c2_clearCache_amended (n : Nat) (idv : Prim) (et : String)
    (ls : List (String × LoaderSpec)) (l : LoaderSpec)
    (hl : List.lookup et ls = some l) (hload : l.hasLoad = true)
    (hclear : l.hasClear = true) :
    (callMethod (mergeGetters []) defMethodNames (n + 2) clearCacheMethod
        (resolveN (mergeGetters []) defMethodNames (n + 2) "dataValues"
          (freshState idv et (some ls))).2).1 = Except.ok (JSVal.prim Prim.undef)
    ∧ (callMethod (mergeGetters []) defMethodNames (n + 2) clearCacheMethod
        (resolveN (mergeGetters []) defMethodNames (n + 2) "dataValues"
          (freshState idv et (some ls))).2).2.clearCalls = [idv]
    ∧ (callMethod (mergeGetters []) defMethodNames (n + 2) clearCacheMethod
        (resolveN (mergeGetters []) defMethodNames (n + 2) "dataValues"
          (freshState idv et (some ls))).2).2.cache
      = [("entityLoader", JSVal.loaderVal l)]
    ∧ (resolveN (mergeGetters []) defMethodNames (n + 2) "dataValues"
        (callMethod (mergeGetters []) defMethodNames (n + 2) clearCacheMethod
          (resolveN (mergeGetters []) defMethodNames (n + 2) "dataValues"
            (freshState idv et (some ls))).2).2).1 = Except.ok (JSVal.deferred 1)
    ∧ callCount (resolveN (mergeGetters []) defMethodNames (n + 2) "dataValues"
        (callMethod (mergeGetters []) defMethodNames (n + 2) clearCacheMethod
          (resolveN (mergeGetters []) defMethodNames (n + 2) "dataValues"
            (freshState idv et (some ls))).2).2).2 "dataValues" = 2
    ∧ resolveN (mergeGetters []) defMethodNames (n + 2) "entityLoader"
        (callMethod (mergeGetters []) defMethodNames (n + 2) clearCacheMethod
          (resolveN (mergeGetters []) defMethodNames (n + 2) "dataValues"
            (freshState idv et (some ls))).2).2
      = (Except.ok (JSVal.loaderVal l),
         (callMethod (mergeGetters []) defMethodNames (n + 2) clearCacheMethod
           (resolveN (mergeGetters []) defMethodNames (n + 2) "dataValues"
             (freshState idv et (some ls))).2).2) := by
  have hfresh : freshState idv et (some ls) = ⟨idv, et, some ls, [], [], 0, [], [], []⟩ := rfl
  rw [hfresh]
  have hA2 : (resolveN (mergeGetters []) defMethodNames (n + 2) "dataValues"
      ⟨idv, et, some ls, [], [], 0, [], [], []⟩).2
      = ⟨idv, et, some ls,
         [("dataValues", JSVal.deferred 0), ("entityLoader", JSVal.loaderVal l)],
         [(0, dvSettle l et idv)], 1, [("entityLoader", 1), ("dataValues", 1)],
         [idv], []⟩ := by
    rw [dv_access n idv et ls l [] [] [] hl hload]
    rfl
  rw [hA2]
  have hEL1 : resolveN (mergeGetters []) defMethodNames (n + 2) "entityLoader"
      ⟨idv, et, some ls,
       [("dataValues", JSVal.deferred 0), ("entityLoader", JSVal.loaderVal l)],
       [(0, dvSettle l et idv)], 1, [("entityLoader", 1), ("dataValues", 1)],
       [idv], []⟩
      = (Except.ok (JSVal.loaderVal l),
         ⟨idv, et, some ls,
          [("dataValues", JSVal.deferred 0), ("entityLoader", JSVal.loaderVal l)],
          [(0, dvSettle l et idv)], 1, [("entityLoader", 1), ("dataValues", 1)],
          [idv], []⟩) := by
    rw [show n + 2 = n + 1 + 1 from rfl]
    exact getter_access_cached (n + 1) "entityLoader" entityLoaderGetter _
      (JSVal.loaderVal l) (by decide) (by decide) (by rfl)
      (by simp [cacheLookup, List.lookup]) (by simp)
  have hEL2 : resolveN (mergeGetters []) defMethodNames (n + 2) "entityLoader"
      ⟨idv, et, some ls, [], [(0, dvSettle l et idv)], 1,
       [("entityLoader", 1), ("dataValues", 1)], [idv], []⟩
      = (Except.ok (JSVal.loaderVal l),
         ⟨idv, et, some ls, [("entityLoader", JSVal.loaderVal l)],
          [(0, dvSettle l et idv)], 1,
          [("entityLoader", 2), ("entityLoader", 1), ("dataValues", 1)], [idv], []⟩) := by
    rw [show n + 2 = n + 1 + 1 from rfl]
    exact el_access (n + 1) idv et ls l [] [(0, dvSettle l et idv)] 1
      [("entityLoader", 1), ("dataValues", 1)] [idv] [] rfl hl
  have hCC : callMethod (mergeGetters []) defMethodNames (n + 2) clearCacheMethod
      ⟨idv, et, some ls,
       [("dataValues", JSVal.deferred 0), ("entityLoader", JSVal.loaderVal l)],
       [(0, dvSettle l et idv)], 1, [("entityLoader", 1), ("dataValues", 1)],
       [idv], []⟩
      = (Except.ok (JSVal.prim Prim.undef),
         ⟨idv, et, some ls, [("entityLoader", JSVal.loaderVal l)],
          [(0, dvSettle l et idv)], 1,
          [("entityLoader", 2), ("entityLoader", 1), ("dataValues", 1)],
          [idv], [idv]⟩) := by
    unfold callMethod
    exact clearCacheMethod_eq _ _ l _ hEL1 hclear hEL2
  have hCC2 : (callMethod (mergeGetters []) defMethodNames (n + 2) clearCacheMethod
      ⟨idv, et, some ls,
       [("dataValues", JSVal.deferred 0), ("entityLoader", JSVal.loaderVal l)],
       [(0, dvSettle l et idv)], 1, [("entityLoader", 1), ("dataValues", 1)],
       [idv], []⟩).2
      = ⟨idv, et, some ls, [("entityLoader", JSVal.loaderVal l)],
         [(0, dvSettle l et idv)], 1,
         [("entityLoader", 2), ("entityLoader", 1), ("dataValues", 1)],
         [idv], [idv]⟩ := by
    rw [hCC]
  rw [hCC2]
  have hdv2 := dv_access_cachedEL n idv et (some ls) l
    [("entityLoader", JSVal.loaderVal l)] [(0, dvSettle l et idv)] 1
    [("entityLoader", 2), ("entityLoader", 1), ("dataValues", 1)] [idv] [idv]
    (by simp [List.lookup]) (by simp [List.lookup]) hload
  have hdv2s : (resolveN (mergeGetters []) defMethodNames (n + 2) "dataValues"
      ⟨idv, et, some ls, [("entityLoader", JSVal.loaderVal l)],
       [(0, dvSettle l et idv)], 1,
       [("entityLoader", 2), ("entityLoader", 1), ("dataValues", 1)],
       [idv], [idv]⟩).2
      = ⟨idv, et, some ls,
         [("dataValues", JSVal.deferred 1), ("entityLoader", JSVal.loaderVal l)],
         [(1, dvSettle l et idv), (0, dvSettle l et idv)], 2,
         [("dataValues", 2), ("entityLoader", 2), ("entityLoader", 1), ("dataValues", 1)],
         [idv, idv], [idv]⟩ := by
    rw [hdv2]
    rfl
  refine ⟨congrArg Prod.fst hCC, rfl, rfl, congrArg Prod.fst hdv2, ?_, ?_⟩
  · rw [hdv2s]
    simp [callCount, List.lookup]
  · rw [show n + 2 = n + 1 + 1 from rfl]
    exact getter_access_cached (n + 1) "entityLoader" entityLoaderGetter _
      (JSVal.loaderVal l) (by decide) (by decide) (by rfl)
      (by simp [cacheLookup, List.lookup]) (by simp)

/-- Witness for C2 (amended) on the end-to-end example handle. -/
theorem c2_clearCache_amended_witness :
    (callMethod (mergeGetters []) defMethodNames 6 clearCacheMethod
        (resolveN (mergeGetters []) defMethodNames 6 "dataValues"
          (freshState (Prim.numv 46) "User" (some [("User", elonLoader)]))).2).2.clearCalls
      = [Prim.numv 46]
    ∧ callCount (resolveN (mergeGetters []) defMethodNames 6 "dataValues"
        (callMethod (mergeGetters []) defMethodNames 6 clearCacheMethod
          (resolveN (mergeGetters []) defMethodNames 6 "dataValues"
            (freshState (Prim.numv 46) "User" (some [("User", elonLoader)]))).2).2).2
        "dataValues" = 2 :=
  ⟨(c2_clearCache_amended 4 (Prim.numv 46) "User" [("User", elonLoader)] elonLoader
      (by decide) (by decide) (by decide)).2.1,
   (c2_clearCache_amended 4 (Prim.numv 46) "User" [("User", elonLoader)] elonLoader
      (by decide) (by decide) (by decide)).2.2.2.2.1⟩
